import Mathlib

/-!
DiskImageResourcePBM, a shallow embedding.

The Netpbm reader/writer of `src/vw/FileIO/DiskImageResourcePBM.cc`, embedded
function by function.  Bytes and uint8 samples are natural numbers; a C stream
is a byte list together with a read position.
-/

namespace PBM

/-! ## Single-precision arithmetic used by `normalize` -/

/-- A nonnegative binary32 value, written `num / 2 ^ sh`. -/
structure Float32 where
  num : Nat
  sh : Nat
  deriving DecidableEq, Repr

/-- Loop computing `floor (log2 n)` for `n ≥ 1`; the first argument bounds the
number of halvings. -/
def log2Loop : Nat → Nat → Nat
  | 0, _ => 0
  | fuel + 1, n => if n < 2 then 0 else log2Loop fuel (n / 2) + 1

/-- Value `floor (log2 n)` for `n ≥ 1` (and `0` for `n = 0`). -/
def floorLog2 (n : Nat) : Nat := log2Loop n n

/-- Nearest integer to `p / q`, ties to the even neighbour (the IEEE-754
default rounding direction). -/
def roundHalfEven (p q : Nat) : Nat :=
  let d := p / q
  let r := p % q
  if 2 * r < q then d
  else if q < 2 * r then d + 1
  else if d % 2 = 0 then d else d + 1

/-- Number of fractional bits of the binary32 value nearest to `p / q`: the
significand has 24 bits, so a quotient in `[2^e, 2^(e+1))` is kept to a
multiple of `2^(e-23)`.  For `p < q` the exponent is negative and the value
keeps `23 + k` fractional bits, `k` least with `q ≤ p * 2^k`.  Quotients of
`2^24` and more (no fractional bits, a coarser grid) do not occur here. -/
def f32Shift (p q : Nat) : Nat :=
  if q ≤ p then 23 - floorLog2 (p / q)
  else 23 + (floorLog2 ((q - 1) / p) + 1)

/-- The binary32 quotient `float(p) / float(q)` of two integers below `2^24`
(both conversions to `float` are then exact): the exact quotient rounded to
a 24-bit significand.  `q = 0` (a division by zero in the source) is not
modelled and yields zero. -/
def f32Div (p q : Nat) : Float32 :=
  if p = 0 ∨ q = 0 then ⟨0, 0⟩
  else ⟨roundHalfEven (p * 2 ^ f32Shift p q) q, f32Shift p q⟩

/-- Integer part of a binary32 value: what the conversion `uint8(x)` keeps
before storing (C++ conversion from floating point discards the fraction). -/
def Float32.trunc (x : Float32) : Nat := x.num / 2 ^ x.sh

/-- The conversion `uint8(x)`: the integer part, stored in eight bits. -/
def f32ToUInt8 (x : Float32) : Nat := x.trunc % 256

/-- The expression `float(temp)*255/float(max_value)` of `normalize`.
`float(temp)` is exact and so is the product with `255` (an integer of at
most `255 * 255`, below `2^24`); the division rounds. -/
def scaleFloat (temp max_value : Nat) : Float32 := f32Div (temp * 255) max_value

/-! ## normalize -/

/-- One iteration of the loop body of `normalize` on the sample `*pointer`. -/
def normalizeSample (s max_value : Nat) : Nat :=
  if s > max_value then 255
  else f32ToUInt8 (scaleFloat s max_value)

/-- The function `normalize(data, count, max_value)`: the first `count` samples
of `data` are rewritten in place, the others are left alone. -/
def normalize : List Nat → Nat → Nat → List Nat
  | [], _, _ => []
  | data, 0, _ => data
  | s :: rest, count + 1, max_value =>
      normalizeSample s max_value :: normalize rest count max_value

/-! ## C streams -/

/-- Byte codes of a string literal, as the source writes them. -/
def ascii (s : String) : List Nat := s.toList.map Char.toNat

/-- A `FILE*` open on a file: the bytes of the file and the file position
indicator. -/
structure FILE where
  content : List Nat
  pos : Nat
  deriving DecidableEq, Repr

/-- The call `fgetc(stream)`: the byte at the position, which then advances;
at the end of the file the result is `EOF` (here `none`) and the position
stays. -/
def fgetc (stream : FILE) : Option Nat × FILE :=
  match stream.content.drop stream.pos with
  | c :: _ => (some c, { stream with pos := stream.pos + 1 })
  | [] => (none, stream)

/-- The call `fseek(stream,-1,SEEK_CUR)`: one byte back; at offset zero the
call fails and the position is unchanged. -/
def fseek_back (stream : FILE) : FILE := { stream with pos := stream.pos - 1 }

/-- The C predicate `isspace` in the "C" locale. -/
def isspace (c : Nat) : Bool := c == 32 || (9 ≤ c && c ≤ 13)

/-- The C predicate `isdigit`. -/
def isdigit (c : Nat) : Bool := 48 ≤ c && c ≤ 57

/-- The directive `fscanf(stream,"%s",buf)` with `buf` an array of `size` bytes:
leading white space is skipped, then the bytes up to the next white space or
end of file are stored, followed by a NUL.  The inner `none` is an input
failure (end of file before any byte of a token): nothing is stored.  The
outer `none` is a token that does not fit with its NUL: the directive has no
field width, so it writes past the end of the array and the behaviour is
undefined.  The white space ending the token is not consumed. -/
def fscanf_s (size : Nat) (stream : FILE) : Option (Option (List Nat) × FILE) :=
  let rest := stream.content.drop stream.pos
  let ws := rest.takeWhile isspace
  let tok := (rest.dropWhile isspace).takeWhile (fun c => !isspace c)
  if tok = [] then some (none, { stream with pos := stream.pos + ws.length })
  else if size ≤ tok.length then none
  else some (some tok, { stream with pos := stream.pos + ws.length + tok.length })

/-- Value of a run of decimal digit bytes. -/
def digitsValue (ds : List Nat) : Nat := ds.foldl (fun acc d => 10 * acc + (d - 48)) 0

/-- Result of `strtol` on a 64-bit `long`: out-of-range values saturate. -/
def clampLong (z : Int) : Int := max (-(2 ^ 63)) (min z (2 ^ 63 - 1))

/-- Conversion of a `long` to a 32-bit `int`: reduction modulo `2^32`. -/
def toInt32 (z : Int) : Int := (z + 2 ^ 31) % 2 ^ 32 - 2 ^ 31

/-- The directive `fscanf(stream,"%d",&x)`: leading white space is skipped, an
optional sign and then decimal digits are read.  `none` means that no digit
was found (matching or input failure): `x` is then left as it was, and the
white space and the sign, if any, have been consumed.  The byte that ends the
digits is not consumed. -/
def fscanf_d (stream : FILE) : Option Int × FILE :=
  let rest := stream.content.drop stream.pos
  let ws := rest.takeWhile isspace
  let r := rest.dropWhile isspace
  let sign := match r with
    | c :: _ => if c = 45 ∨ c = 43 then 1 else 0
    | [] => 0
  let ds := (r.drop sign).takeWhile isdigit
  let v : Int := if r.head? = some 45 then -(digitsValue ds : Int) else (digitsValue ds : Int)
  if ds = [] then (none, { stream with pos := stream.pos + ws.length + sign })
  else (some (toInt32 (clampLong v)),
        { stream with pos := stream.pos + ws.length + sign + ds.length })

/-! ## skip_any_comments -/

/-- The inner `do { temp = fgetc(stream); } while ( temp != '\n' );`.  The first
argument bounds the number of iterations; `none` is returned when the bound
is exhausted.  At end of file `fgetc` returns `EOF`, which is not `'\n'`, and
the loop goes on. -/
def doWhileNotNewline : Nat → FILE → Option FILE
  | 0, _ => none
  | fuel + 1, stream =>
      let (temp, stream1) := fgetc stream
      if temp ≠ some 10 then doWhileNotNewline fuel stream1 else some stream1

/-- The outer `while ( temp == '#' ) { do-while; temp = fgetc(stream); }`, entered
with the current `temp`.  The iteration bound is as in `doWhileNotNewline`. -/
def whileHash : Nat → Option Nat → FILE → Option FILE
  | 0, _, _ => none
  | fuel + 1, temp, stream =>
      if temp = some 35 then
        match doWhileNotNewline (stream.content.length + 1) stream with
        | none => none
        | some stream1 =>
            let (temp2, stream2) := fgetc stream1
            whileHash fuel temp2 stream2
      else some stream

/-- The function `skip_any_comments(stream)`.  Every iteration of either loop
that does not exit consumes a byte or sits at end of file, so
`content.length + 1` iterations are enough for each loop to exit if it ever
does: `none` is a call that never returns. -/
def skip_any_comments (stream : FILE) : Option FILE :=
  let (temp, stream1) := fgetc stream
  (whileHash (stream.content.length + 1) temp stream1).map fseek_back

/-! ## The resource -/

/-- Modelled from the spec: the channel types of `vw/Image/PixelTypes.h`, a
header that is not among the sources.  The three the code names are kept
apart; every other channel type is an `other`. -/
inductive ChannelTypeEnum where
  | VW_CHANNEL_BOOL
  | VW_CHANNEL_UINT8
  | VW_CHANNEL_UINT16
  | other (code : Nat)
  deriving DecidableEq, Repr

/-- Modelled from the spec: the pixel formats of `vw/Image/PixelTypes.h`, a
header that is not among the sources.  The two the code names are kept
apart; every other pixel format is an `other`. -/
inductive PixelFormatEnum where
  | VW_PIXEL_GRAY
  | VW_PIXEL_RGB
  | other (code : Nat)
  deriving DecidableEq, Repr

/-- Modelled from the spec: the descriptor `ImageFormat` of the image library
(declared outside the sources): dimensions, plane count, pixel format and
channel type.  The three counts are 32-bit fields; each is held here as the
signed value of its bits, the value `%d` prints and `int(cols())` yields. -/
structure ImageFormat where
  cols : Int
  rows : Int
  planes : Int
  pixel_format : PixelFormatEnum
  channel_type : ChannelTypeEnum
  deriving DecidableEq, Repr

/-- Modelled from the spec: the pixel buffer `ImageBuffer` of the image
library: a flat sample array (booleans are `0` and `1`), its descriptor and
its column, row and plane strides. -/
structure ImageBuffer where
  data : List Nat
  format : ImageFormat
  cstride : Int
  rstride : Int
  pstride : Int
  deriving DecidableEq, Repr

/-- Modelled from the spec: the extent of the bounding box `BBox2i` that
`read` and `write` receive; only `width()` and `height()` are used. -/
structure BBox2i where
  width : Int
  height : Int
  deriving DecidableEq, Repr

/-- The exceptions the code throws: the two of the image library that it names,
and the `std::bad_alloc` that `new T[count]` throws for a negative count. -/
inductive Exn where
  | IOErr
  | NoImplErr
  | bad_alloc
  deriving DecidableEq, Repr

/-- How a call that changes state ends: it never returns, it throws with the
state as the call left it, it returns normally, or its behaviour is
undefined (an array was overrun). -/
inductive Outcome (σ : Type) where
  | diverges
  | throws (e : Exn) (state : σ)
  | returns (state : σ)
  | undefined
  deriving DecidableEq, Repr

/-- The files on disk, by name. -/
abbrev FileSystem := String → Option (List Nat)

/-- The file system after the file `name` has been given the content `bytes`. -/
def FileSystem.store (fs : FileSystem) (name : String) (bytes : List Nat) : FileSystem :=
  fun n => if n = name then some bytes else fs n

/-- The members of a `DiskImageResourcePBM` (`m_filename`, `m_format` and
`m_rescale` belong to the base class). -/
structure DiskImageResourcePBM where
  m_filename : String
  m_format : ImageFormat
  m_rescale : Bool
  m_magic : List Nat
  m_max_value : Int
  m_image_data_position : Nat
  deriving DecidableEq, Repr

/-- What the locals of `open` hold before anything is stored in them: the
array `c_line` and the integers `iwidth` and `iheight` are declared without
an initial value, and a failed `fscanf` leaves them as they were. -/
structure OpenLocals where
  c_line : List Nat
  iwidth : Int
  iheight : Int
  deriving DecidableEq, Repr

/-- The conversion `std::string(c_line)`: the bytes before the first NUL. -/
def cstring (buf : List Nat) : List Nat := buf.takeWhile (fun c => c != 0)

/-- Modelled from the spec: `imax`, which line 99 tests, is declared nowhere in
the source file; the spec rejects a max-value that is not strictly between 0
and 255, so `imax` is taken to be the max-value that `open` has just stored
in `m_max_value`. -/
def imax (m_max_value : Int) : Int := m_max_value

/-- The body of `open` once the file is open (lines 76 to 126). -/
def openStream (self : DiskImageResourcePBM) (u : OpenLocals) (input_file : FILE) :
    Outcome DiskImageResourcePBM :=
  -- Reading version info
  match skip_any_comments input_file with
  | none => .diverges
  | some s1 =>
  -- char c_line[2048]
  match fscanf_s 2048 s1 with
  | none => .undefined
  | some (c_line, s2) =>
  let self1 := { self with m_magic := cstring (c_line.getD u.c_line) }
  if ¬ (self1.m_magic = ascii "P6" ∨ self1.m_magic = ascii "P5" ∨ self1.m_magic = ascii "P4" ∨
        self1.m_magic = ascii "P3" ∨ self1.m_magic = ascii "P2" ∨ self1.m_magic = ascii "P1") then
    .throws .IOErr self1
  else
  -- Getting image width, height, and max gray value.
  match skip_any_comments s2 with
  | none => .diverges
  | some s3 =>
  let (w, s4) := fscanf_d s3
  let iwidth := w.getD u.iwidth
  match skip_any_comments s4 with
  | none => .diverges
  | some s5 =>
  let (h, s6) := fscanf_d s5
  let iheight := h.getD u.iheight
  let scanned : Option (Int × FILE) :=
    if self1.m_magic ≠ ascii "P1" ∧ self1.m_magic ≠ ascii "P4" then
      match skip_any_comments s6 with
      | none => none
      | some s7 =>
          let (m, s8) := fscanf_d s7
          some (m.getD self1.m_max_value, s8)
    else some (1, s6)
  match scanned with
  | none => .diverges
  | some (m_max_value, s9) =>
  let self2 := { self1 with m_max_value := m_max_value, m_image_data_position := s9.pos }
  -- Checking bit sanity
  if imax self2.m_max_value ≤ 0 ∨ imax self2.m_max_value ≥ 255 then .throws .IOErr self2
  else
  let self3 := { self2 with
    m_format := { self2.m_format with cols := iwidth, rows := iheight, planes := 1 } }
  if self3.m_magic = ascii "P1" ∨ self3.m_magic = ascii "P4" then
    -- Boolean File Type
    .returns { self3 with m_format := { self3.m_format with
      channel_type := .VW_CHANNEL_BOOL, pixel_format := .VW_PIXEL_GRAY } }
  else if self3.m_magic = ascii "P2" ∨ self3.m_magic = ascii "P5" then
    -- Grayscale image
    .returns { self3 with m_format := { self3.m_format with
      channel_type := .VW_CHANNEL_UINT8, pixel_format := .VW_PIXEL_GRAY } }
  else if self3.m_magic = ascii "P3" ∨ self3.m_magic = ascii "P6" then
    -- RGB image; the case has no `break` and runs on into `default`
    .throws .IOErr { self3 with m_format := { self3.m_format with
      channel_type := .VW_CHANNEL_UINT8, pixel_format := .VW_PIXEL_RGB } }
  else
    .throws .IOErr self3

/-- The method `open(filename)`; the name `open` is reserved in Lean. -/
def open_ (self : DiskImageResourcePBM) (fs : FileSystem) (filename : String)
    (u : OpenLocals) : Outcome DiskImageResourcePBM :=
  match fs filename with
  | none => .throws .IOErr self
  | some bytes => openStream self u ⟨bytes, 0⟩

/-- The constructor `DiskImageResourcePBM(filename)`: the base class stores the
file name, then `open` runs.  `init` is the rest of the new object, which no
constructor initialises. -/
def construct_open (init : DiskImageResourcePBM) (fs : FileSystem) (filename : String)
    (u : OpenLocals) : Outcome DiskImageResourcePBM :=
  open_ { init with m_filename := filename } fs filename u

/-! ## read -/

/-- What the locals of `read` hold before anything is stored in them: the
character `buffer` of the P1 loop and the freshly allocated array
`image_data`, by index. -/
structure ReadLocals where
  buffer : Nat
  image_data : Nat → Nat

/-- The directive `fscanf(stream,"%hu",p)`: as `%d`, but the digits are
converted as by `strtoul` (64-bit, saturating, a minus sign negates modulo
`2^64`) and the result is narrowed to an `unsigned short`. -/
def fscanf_hu (stream : FILE) : Option Nat × FILE :=
  let rest := stream.content.drop stream.pos
  let ws := rest.takeWhile isspace
  let r := rest.dropWhile isspace
  let sign := match r with
    | c :: _ => if c = 45 ∨ c = 43 then 1 else 0
    | [] => 0
  let ds := (r.drop sign).takeWhile isdigit
  let v := digitsValue ds
  let ul := if 2 ^ 64 ≤ v then 2 ^ 64 - 1
            else if r.head? = some 45 then (2 ^ 64 - v) % 2 ^ 64 else v
  if ds = [] then (none, { stream with pos := stream.pos + ws.length + sign })
  else (some (ul % 65536), { stream with pos := stream.pos + ws.length + sign + ds.length })

/-- The call `fread(buf, 1, count, stream)`: the bytes read, at most `count`, and
the stream after them. -/
def fread (count : Nat) (stream : FILE) : List Nat × FILE :=
  let bytes := (stream.content.drop stream.pos).take count
  (bytes, { stream with pos := stream.pos + bytes.length })

/-- A fresh array of `n` elements: `new T[n]` initialises nothing. -/
def newArray (u : ReadLocals) (n : Nat) : List Nat := (List.range n).map u.image_data

/-- The array `image_data` after `fread` stored `bytes` at its start. -/
def afterFread (u : ReadLocals) (n : Nat) (bytes : List Nat) : List Nat :=
  bytes ++ (newArray u n).drop bytes.length

/-- The P1 loop: `fscanf( input_file, "%c", &buffer )` once per pixel and a test
of `buffer` against `'1'`.  At end of file `buffer` keeps what it held. -/
def readBoolASCII : Nat → Nat → FILE → List Nat
  | 0, _, _ => []
  | n + 1, buffer, stream =>
      let (c, stream1) := fgetc stream
      let buffer1 := c.getD buffer
      (if buffer1 = 49 then 1 else 0) :: readBoolASCII n buffer1 stream1

/-- A store of the `unsigned short` `v` through a `uint8*` at index `i`: the low
byte lands at `i` and the high byte at `i + 1` (little-endian host).  A store
past the end of the array is dropped. -/
def store16 (mem : List Nat) (i v : Nat) : List Nat :=
  (mem.set i (v % 256)).set (i + 1) (v / 256 % 256)

/-- The P2 and P3 loops: `n` calls of `fscanf( input_file, "%hu", point )` with
`point` stepping through the `uint8` array from index `i`. -/
def readShortASCII : Nat → Nat → FILE → List Nat → List Nat
  | 0, _, _, mem => mem
  | n + 1, i, stream, mem =>
      let (v, stream1) := fscanf_hu stream
      readShortASCII n (i + 1) stream1 (match v with
        | some x => store16 mem i x
        | none => mem)

/-- The conversion of `m_max_value` to the `uint8` parameter of `normalize`. -/
def toUInt8 (z : Int) : Nat := (z % 256).toNat

/-- The stream after the P1 loop of `read` has run `n` times: one `%c` directive,
hence one `fgetc`, per pixel (the loop of `readBoolASCII`, keeping the stream
in place of the samples). -/
def readBoolASCII_stream : Nat → FILE → FILE
  | 0, stream => stream
  | n + 1, stream => readBoolASCII_stream n (fgetc stream).2

/-- The stream after `n` calls of `fscanf( input_file, "%hu", point )` (the loop of
`readShortASCII`, keeping the stream in place of the samples). -/
def readShortASCII_stream : Nat → FILE → FILE
  | 0, stream => stream
  | n + 1, stream => readShortASCII_stream n (fscanf_hu stream).2

/-- The method `read(dest, bbox)` up to `fclose`, before the external `convert`:
the buffer `src` that `read` stages, and the input stream as the transfer
left it.  `num_pixels` and `num_pixels*3` are 32-bit products (reduced modulo
`2^32`); `new T[count]` throws `std::bad_alloc` for a negative count; `fread`
and `normalize` take the count as it is. -/
def read_run (self : DiskImageResourcePBM) (fs : FileSystem) (dest : ImageBuffer)
    (bbox : BBox2i) (u : ReadLocals) : Except Exn (ImageBuffer × FILE) :=
  if ¬ (bbox.width = self.m_format.cols ∧ bbox.height = self.m_format.rows) then
    .error .NoImplErr
  else if ¬ (dest.format.cols = self.m_format.cols ∧ dest.format.rows = self.m_format.rows) then
    .error .IOErr
  else
  match fs self.m_filename with
  | none => .error .IOErr
  | some bytes =>
  let input_file : FILE := ⟨bytes, self.m_image_data_position⟩
  -- Reading image data
  let num_pixels := toInt32 (self.m_format.cols * self.m_format.rows)
  let num_pixels3 := toInt32 (num_pixels * 3)
  let n := num_pixels.toNat
  let n3 := num_pixels3.toNat
  let src (data : List Nat) : ImageBuffer :=
    { data := data, format := self.m_format, cstride := 1,
      rstride := self.m_format.cols, pstride := num_pixels }
  if self.m_magic = ascii "P1" then
    if num_pixels < 0 then .error .bad_alloc
    else .ok (src (readBoolASCII n u.buffer input_file), readBoolASCII_stream n input_file)
  else if self.m_magic = ascii "P2" then
    if num_pixels < 0 then .error .bad_alloc
    else .ok (src (normalize (readShortASCII n 0 input_file (newArray u n)) n
      (toUInt8 self.m_max_value)), readShortASCII_stream n input_file)
  else if self.m_magic = ascii "P3" then
    if num_pixels3 < 0 then .error .bad_alloc
    else .ok (src (normalize (readShortASCII (n * 3) 0 input_file (newArray u n3)) n3
      (toUInt8 self.m_max_value)), readShortASCII_stream (n * 3) input_file)
  else if self.m_magic = ascii "P4" then
    if num_pixels < 0 then .error .bad_alloc
    else .ok (src (afterFread u n (fread n input_file).1), (fread n input_file).2)
  else if self.m_magic = ascii "P5" then
    if num_pixels < 0 then .error .bad_alloc
    else .ok (src (normalize (afterFread u n (fread n input_file).1) n
      (toUInt8 self.m_max_value)), (fread n input_file).2)
  else if self.m_magic = ascii "P6" then
    if num_pixels3 < 0 then .error .bad_alloc
    else .ok (src (normalize (afterFread u n3 (fread n3 input_file).1) n3
      (toUInt8 self.m_max_value)), (fread n3 input_file).2)
  else .error .NoImplErr

/-- The method `read(dest, bbox)` up to the call of the external `convert`: the
result is the buffer `src` that `read` stages and hands to `convert`. -/
def read_staged (self : DiskImageResourcePBM) (fs : FileSystem) (dest : ImageBuffer)
    (bbox : BBox2i) (u : ReadLocals) : Except Exn ImageBuffer :=
  match read_run self fs dest bbox u with
  | .error e => .error e
  | .ok (src, _) => .ok src

/-- The method `read(dest, bbox)`: the samples that the external
`convert( dest, src, m_rescale )` leaves in the destination buffer. -/
def read (convert : ImageBuffer → ImageBuffer → Bool → List Nat)
    (self : DiskImageResourcePBM) (fs : FileSystem) (dest : ImageBuffer)
    (bbox : BBox2i) (u : ReadLocals) : Except Exn (List Nat) :=
  match read_staged self fs dest bbox u with
  | .error e => .error e
  | .ok src => .ok (convert dest src self.m_rescale)

/-! ## create and write -/

/-- Decimal digits of `n`, most significant first, in front of `acc`; the first
argument bounds the number of digits. -/
def decimalDigits : Nat → Nat → List Nat → List Nat
  | 0, _, acc => acc
  | fuel + 1, n, acc =>
      if n < 10 then (48 + n) :: acc
      else decimalDigits fuel (n / 10) ((48 + n % 10) :: acc)

/-- The output of `fprintf(f, "%d", z)`. -/
def fprintf_d (z : Int) : List Nat :=
  if z < 0 then 45 :: decimalDigits (z.natAbs + 1) z.natAbs []
  else decimalDigits (z.natAbs + 1) z.natAbs []

/-- State after `create`: the object, the files on disk, and the bytes handed
to a stream that was left open (they sit in the buffer of the stream). -/
structure CreateState where
  self : DiskImageResourcePBM
  fs : FileSystem
  pending : List Nat

/-- The method `create(filename, format)`.  `fopen(filename, "w")` empties or
creates the file; the header goes through `fprintf` and reaches the file at
`fclose`.  (A failing `fopen` is not modelled.) -/
def create (self : DiskImageResourcePBM) (fs : FileSystem) (filename : String)
    (format : ImageFormat) : Outcome CreateState :=
  if format.planes ≠ 1 then .throws .NoImplErr ⟨self, fs, []⟩
  else
  let self1 := { self with m_filename := filename, m_format := format }
  let out := ascii "P5\n" ++ (fprintf_d self1.m_format.cols ++ ascii "\n")
    ++ (fprintf_d self1.m_format.rows ++ ascii "\n")
  -- Converting to a PPM
  let finish (out : List Nat) : Outcome CreateState :=
    .returns ⟨{ self1 with m_image_data_position := out.length }, fs.store filename out, []⟩
  match self1.m_format.channel_type with
  | .VW_CHANNEL_BOOL => finish (out ++ ascii "1\n")
  | .VW_CHANNEL_UINT8 => finish (out ++ ascii "255\n")
  | .VW_CHANNEL_UINT16 => finish (out ++ ascii "65535\n")
  | .other _ => .throws .NoImplErr ⟨self1, fs.store filename [], out⟩

/-- The constructor `DiskImageResourcePBM(filename, format)`. -/
def construct_create (init : DiskImageResourcePBM) (fs : FileSystem) (filename : String)
    (format : ImageFormat) : Outcome CreateState :=
  create { init with m_filename := filename } fs filename format

/-- Bytes of a `uint16` sample in memory (little-endian host). -/
def bytes16 (v : Nat) : List Nat := [v % 256, v / 256 % 256]

/-- The method `write(src, bbox)`.  The file is opened for appending (and
created if absent), so the bytes land at its end; `convert` is the external
conversion and yields the samples of `dst`, of which `num_pixels` are
written.  `num_pixels` is a 32-bit product (reduced modulo `2^32`) and
`new T[num_pixels]` throws `std::bad_alloc` when it is negative, the file
being open by then. -/
def write (convert : ImageBuffer → ImageBuffer → Bool → List Nat)
    (self : DiskImageResourcePBM) (fs : FileSystem) (src : ImageBuffer)
    (bbox : BBox2i) : Outcome FileSystem :=
  if ¬ (bbox.width = self.m_format.cols ∧ bbox.height = self.m_format.rows) then
    .throws .NoImplErr fs
  else if ¬ (src.format.cols = self.m_format.cols ∧ src.format.rows = self.m_format.rows) then
    .throws .IOErr fs
  else
  let old := (fs self.m_filename).getD []
  let num_pixels := toInt32 (self.m_format.cols * self.m_format.rows)
  let dst : ImageBuffer :=
    { data := [], format := self.m_format, cstride := 1,
      rstride := self.m_format.cols, pstride := num_pixels }
  let image_data := (convert dst src self.m_rescale).take num_pixels.toNat
  match self.m_format.channel_type with
  | .VW_CHANNEL_UINT8 =>
      if num_pixels < 0 then .throws .bad_alloc (fs.store self.m_filename old)
      else .returns (fs.store self.m_filename (old ++ image_data.map (fun v => v % 256)))
  | .VW_CHANNEL_UINT16 =>
      if num_pixels < 0 then .throws .bad_alloc (fs.store self.m_filename old)
      else .returns (fs.store self.m_filename (old ++ (image_data.map bytes16).flatten))
  | .VW_CHANNEL_BOOL =>
      if num_pixels < 0 then .throws .bad_alloc (fs.store self.m_filename old)
      else .returns (fs.store self.m_filename
        (old ++ image_data.map (fun v => if v = 0 then 0 else 1)))
  | .other _ => .throws .NoImplErr (fs.store self.m_filename old)

/-! ## Reference definitions taken from the specification -/

/-- The rescaling as the specification words it, `round(s * 255 / m)`: the
nearest integer, a half rounding up. -/
def spec_round (s m : Nat) : Nat := (2 * (s * 255) + m) / (2 * m)

/-- Modelled from the spec: the external `convert` between buffers of one and
the same channel type, taken to copy the samples. -/
def convert_same (_dst src : ImageBuffer) (_rescale : Bool) : List Nat := src.data

/-- Modelled from the spec: the external `convert` into a boolean buffer, taken
to give true exactly for a non-zero source sample. -/
def convert_to_bool (_dst src : ImageBuffer) (_rescale : Bool) : List Nat :=
  src.data.map (fun v => if v = 0 then 0 else 1)

/-- A descriptor of `cols` by `rows` samples in one plane of grey. -/
def grayFormat (cols rows : Int) (channel_type : ChannelTypeEnum) : ImageFormat :=
  { cols := cols, rows := rows, planes := 1, pixel_format := .VW_PIXEL_GRAY,
    channel_type := channel_type }

/-- A caller's buffer of the given descriptor holding `data` row by row. -/
def bufferOf (format : ImageFormat) (data : List Nat) : ImageBuffer :=
  { data := data, format := format, cstride := 1, rstride := format.cols,
    pstride := format.cols * format.rows }

/-- The bounding box covering a whole image of the given descriptor. -/
def fullBox (format : ImageFormat) : BBox2i := { width := format.cols, height := format.rows }

/-- The decimal numeral of an integer, the specification's `decimal(n)`. -/
def decimal (z : Int) : List Nat := ascii (toString z)

/-- The max-value token the specification gives to each destination channel type
of `create`: boolean 1, 8-bit 255, 16-bit 65535. -/
def spec_max_value_token : ChannelTypeEnum → Option String
  | .VW_CHANNEL_BOOL => some "1"
  | .VW_CHANNEL_UINT8 => some "255"
  | .VW_CHANNEL_UINT16 => some "65535"
  | .other _ => none

/-- The error kinds of the specification, and `unlisted` for an exception that
the specification does not list. -/
inductive SpecError where
  | IOError
  | FormatError
  | UnsupportedOperation
  | unlisted
  deriving DecidableEq, Repr

/-- The kind the specification gives to an exception of the code: `IOErr` is its
`IOError` and `NoImplErr` its `UnsupportedOperation`; no exception of the
code is a `FormatError`, and `std::bad_alloc` is not in the list. -/
def Exn.kind : Exn → SpecError
  | .IOErr => .IOError
  | .NoImplErr => .UnsupportedOperation
  | .bad_alloc => .unlisted

/-! ## Fixtures for concrete runs -/

/-- An object whose members hold leftovers, as before any constructor body ran. -/
def leftover : DiskImageResourcePBM :=
  { m_filename := "", m_format := grayFormat 7777 8888 (.other 0), m_rescale := true,
    m_magic := [], m_max_value := 9999, m_image_data_position := 0 }

/-- Leftover contents of the locals of `open`. -/
def leftoverLocals : OpenLocals := { c_line := [], iwidth := 7777, iheight := 8888 }

/-- Leftover contents of the locals of `read`. -/
def leftoverRead : ReadLocals := { buffer := 0, image_data := fun _ => 0 }

/-- A disk without files. -/
def noFiles : FileSystem := fun _ => none

end PBM

namespace PBM

/-! ## Properties of normalize -/

theorem log2Loop_le (fuel : Nat) : ∀ n k : Nat, n < 2 ^ (k + 1) → log2Loop fuel n ≤ k := by
  induction fuel with
  | zero => intro n k _; simp [log2Loop]
  | succ f ih =>
    intro n k h
    unfold log2Loop
    split
    · exact Nat.zero_le _
    · rename_i h2
      cases k with
      | zero => omega
      | succ k =>
        have : n / 2 < 2 ^ (k + 1) := by
          rw [Nat.div_lt_iff_lt_mul (by decide)]
          rw [pow_succ] at h
          exact h
        have := ih (n / 2) k this
        omega

theorem f32Shift_ge (p q : Nat) (h1 : q ≤ p) (h2 : p / q < 256) : 16 ≤ f32Shift p q := by
  unfold f32Shift floorLog2
  rw [if_pos h1]
  have := log2Loop_le (p / q) (p / q) 7 (by simpa using h2)
  omega

theorem roundHalfEven_cases (p q : Nat) :
    roundHalfEven p q = p / q ∨ (roundHalfEven p q = p / q + 1 ∧ q ≤ 2 * (p % q)) := by
  unfold roundHalfEven
  dsimp only
  split
  · left; rfl
  · split
    · right; exact ⟨rfl, by omega⟩
    · split
      · left; rfl
      · right; exact ⟨rfl, by omega⟩

theorem roundHalfEven_div (p q P : Nat) (hq : 0 < q) (hqP : q ≤ P) :
    roundHalfEven (p * P) q / P = p / q := by
  have hP : 0 < P := by omega
  have h1 : p / q * q ≤ p := Nat.div_mul_le_self p q
  have h2 : p < (p / q + 1) * q := by
    have := @Nat.lt_div_mul_add p q hq
    linarith
  have h3 : q * (p * P / q) + p * P % q = p * P := Nat.div_add_mod (p * P) q
  have h4 : p * P % q < q := Nat.mod_lt _ hq
  have h1P : p / q * q * P ≤ p * P := Nat.mul_le_mul_right P h1
  have h2P : (p + 1) * P ≤ (p / q + 1) * q * P := Nat.mul_le_mul_right P h2
  have hcases := roundHalfEven_cases (p * P) q
  generalize roundHalfEven (p * P) q = M at *
  generalize p / q = c at *
  generalize p * P / q = d at *
  generalize p * P % q = r at *
  have hlow : c * P ≤ d := by
    by_contra hc
    have h5 : d + 1 ≤ c * P := by omega
    have h6 : (d + 1) * q ≤ c * P * q := Nat.mul_le_mul_right q h5
    nlinarith
  have hhigh : M < (c + 1) * P := by
    by_contra hc
    have h5 : (c + 1) * P ≤ M := by omega
    have h6 : (c + 1) * P * q ≤ M * q := Nat.mul_le_mul_right q h5
    rcases hcases with h | ⟨h, hr⟩
    · subst h; nlinarith
    · subst h; nlinarith
  have hM : c * P ≤ M := by
    rcases hcases with h | ⟨h, _⟩ <;> omega
  apply Nat.div_eq_of_lt_le
  · exact hM
  · exact hhigh

theorem trunc_f32Div (p q : Nat) (hq : 0 < q) (hq2 : q < 65536)
    (hpq : p = 0 ∨ (q ≤ p ∧ p / q < 256)) : (f32Div p q).trunc = p / q := by
  unfold f32Div Float32.trunc
  rcases hpq with h | ⟨h1, h2⟩
  · subst h; simp
  · have hp : p ≠ 0 := by omega
    have hq0 : q ≠ 0 := by omega
    simp only [hp, hq0, or_self, if_false]
    apply roundHalfEven_div p q _ hq
    have h16 := f32Shift_ge p q h1 h2
    have : 2 ^ 16 ≤ 2 ^ f32Shift p q := Nat.pow_le_pow_right (by decide) h16
    omega

theorem trunc_scaleFloat (s m : Nat) (hm : 0 < m) (hm2 : m < 255) (hs : s ≤ m) :
    (scaleFloat s m).trunc = s * 255 / m := by
  unfold scaleFloat
  apply trunc_f32Div _ _ hm (by omega)
  rcases Nat.eq_zero_or_pos s with h | h
  · left; simp [h]
  · right
    constructor
    · omega
    · have : s * 255 / m ≤ 255 := Nat.div_le_of_le_mul (by nlinarith)
      omega

theorem scale_le (s m : Nat) (hs : s ≤ m) : s * 255 / m ≤ 255 :=
  Nat.div_le_of_le_mul (by nlinarith)

theorem normalizeSample_le (s m : Nat) (hm : 0 < m) (hm2 : m < 255) (hs : s ≤ m) :
    normalizeSample s m = s * 255 / m := by
  unfold normalizeSample f32ToUInt8
  rw [if_neg (by omega), trunc_scaleFloat s m hm hm2 hs]
  exact Nat.mod_eq_of_lt (Nat.lt_succ_of_le (scale_le s m hs))

theorem normalizeSample_gt (s m : Nat) (hs : m < s) : normalizeSample s m = 255 := by
  unfold normalizeSample
  rw [if_pos hs]

theorem normalize_getElem? (data : List Nat) : ∀ (count m i : Nat), i < count →
    (normalize data count m)[i]? = data[i]?.map (fun s => normalizeSample s m) := by
  induction data with
  | nil => intro count m i _; simp [normalize]
  | cons s rest ih =>
    intro count m i hi
    cases count with
    | zero => omega
    | succ c =>
      cases i with
      | zero => simp [normalize]
      | succ j =>
        simp only [normalize, List.getElem?_cons_succ]
        exact ih c m j (by omega)

/-- Claim C2, as stated, fails: for max-value 100 the sample 50 is rewritten to
127, the integer part of 127.5, while the specification's rounding gives 128. -/
theorem normalize_truncates_at_half :
    0 < 100 ∧ 100 < 255 ∧ 50 ≤ 100 ∧ normalize [50] 1 100 = [127] ∧ spec_round 50 100 = 128 ∧
    normalize [50] 1 100 ≠ [spec_round 50 100] := by
  decide

/-- Claim C2, amended: for a max-value `m` with `0 < m < 255`, `normalize` replaces
each of the first `count` samples `s` with `s ≤ m` by the integer part of
`s * 255 / m`. -/
theorem normalize_rescales_by_floor (data : List Nat) (count m i s : Nat)
    (hm : 0 < m) (hm2 : m < 255) (hi : i < count) (hd : data[i]? = some s) (hs : s ≤ m) :
    (normalize data count m)[i]? = some (s * 255 / m) := by
  rw [normalize_getElem? data count m i hi, hd, Option.map_some', normalizeSample_le s m hm hm2 hs]

/-- Witness of `normalize_rescales_by_floor`: max-value 100, sample 50 gives 127. -/
theorem normalize_rescales_by_floor_witness :
    (normalize [50, 100] 2 100)[0]? = some 127 :=
  normalize_rescales_by_floor [50, 100] 2 100 0 50 (by decide) (by decide) (by decide)
    (by decide) (by decide)

/-- Claim C3: for a max-value `m` in 1..254, every sample among the first `count`
that exceeds `m` is set to exactly 255, whatever the other samples are. -/
theorem normalize_clamps_above_max (data : List Nat) (count m i s : Nat)
    (_hm : 1 ≤ m) (_hm2 : m ≤ 254) (hi : i < count) (hd : data[i]? = some s) (hs : m < s) :
    (normalize data count m)[i]? = some 255 := by
  rw [normalize_getElem? data count m i hi, hd, Option.map_some', normalizeSample_gt s m hs]

/-- Witness of `normalize_clamps_above_max`: max-value 100, second sample 101. -/
theorem normalize_clamps_above_max_witness :
    (normalize [3, 101, 7] 3 100)[1]? = some 255 :=
  normalize_clamps_above_max [3, 101, 7] 3 100 1 101 (by decide) (by decide) (by decide)
    (by decide) (by decide)

/-- Claim C4: for a max-value `m` with `0 < m < 255` and samples `s1 ≤ s2 ≤ m`, the
values `normalize` assigns are the integer parts of the scaled floats, which
are at most 255 (the conversion to `uint8` does not wrap), and the value for
`s1` is at most the value for `s2`. -/
theorem normalize_in_range_and_monotone (m s1 s2 : Nat)
    (hm : 0 < m) (hm2 : m < 255) (h12 : s1 ≤ s2) (h2 : s2 ≤ m) :
    ∃ v1 v2, normalize [s1] 1 m = [v1] ∧ normalize [s2] 1 m = [v2] ∧
      (scaleFloat s1 m).trunc = v1 ∧ (scaleFloat s2 m).trunc = v2 ∧
      v1 ≤ v2 ∧ v2 ≤ 255 := by
  refine ⟨s1 * 255 / m, s2 * 255 / m, ?_, ?_, ?_, ?_, ?_, ?_⟩
  · simp [normalize, normalizeSample_le s1 m hm hm2 (by omega)]
  · simp [normalize, normalizeSample_le s2 m hm hm2 h2]
  · exact trunc_scaleFloat s1 m hm hm2 (by omega)
  · exact trunc_scaleFloat s2 m hm hm2 h2
  · exact Nat.div_le_div_right (Nat.mul_le_mul_right 255 h12)
  · exact scale_le s2 m h2

/-- Witness of `normalize_in_range_and_monotone`: max-value 100, samples 50 and 100. -/
theorem normalize_in_range_and_monotone_witness :
    ∃ v1 v2, normalize [50] 1 100 = [v1] ∧ normalize [100] 1 100 = [v2] ∧
      (scaleFloat 50 100).trunc = v1 ∧ (scaleFloat 100 100).trunc = v2 ∧
      v1 ≤ v2 ∧ v2 ≤ 255 :=
  normalize_in_range_and_monotone 100 50 100 (by decide) (by decide) (by decide) (by decide)

/-! ## Scanning lemmas -/

theorem skip_any_comments_of_ne (stream : FILE) (c : Nat) (t : List Nat)
    (h : stream.content.drop stream.pos = c :: t) (hc : c ≠ 35) :
    skip_any_comments stream = some stream := by
  unfold skip_any_comments fgetc
  rw [h]
  simp [whileHash, hc, fseek_back]

theorem takeWhile_append_stop (p : Nat → Bool) (ds t : List Nat) (c : Nat)
    (hall : ∀ d ∈ ds, p d = true) (hc : p c = false) :
    (ds ++ c :: t).takeWhile p = ds := by
  induction ds with
  | nil => simp [List.takeWhile_cons, hc]
  | cons d ds ih =>
    have hd : p d = true := hall d (List.mem_cons_self _ _)
    simp only [List.cons_append, List.takeWhile_cons, hd, if_true]
    rw [ih (fun x hx => hall x (List.mem_cons_of_mem _ hx))]

theorem isdigit_not_space (d : Nat) (h : isdigit d = true) : isspace d = false := by
  simp only [isdigit, isspace, Bool.and_eq_true, decide_eq_true_eq] at *
  simp only [Bool.or_eq_false_iff, beq_eq_false_iff_ne, Bool.and_eq_false_iff, decide_eq_false_iff_not]
  omega

theorem isdigit_not_sign (d : Nat) (h : isdigit d = true) : ¬ (d = 45 ∨ d = 43) := by
  simp only [isdigit, Bool.and_eq_true, decide_eq_true_eq] at h
  omega

theorem fscanf_d_digits (stream : FILE) (d : Nat) (ds t : List Nat)
    (hall : ∀ x ∈ d :: ds, isdigit x = true)
    (h : stream.content.drop stream.pos = 10 :: (d :: ds ++ 10 :: t)) :
    fscanf_d stream = (some (toInt32 (clampLong (digitsValue (d :: ds)))),
      { stream with pos := stream.pos + 1 + (d :: ds).length }) := by
  have hd : isdigit d = true := hall d (List.mem_cons_self _ _)
  have hsp := isdigit_not_space d hd
  have hsg := isdigit_not_sign d hd
  have htw : ((d :: ds) ++ 10 :: t).takeWhile isdigit = d :: ds :=
    takeWhile_append_stop isdigit (d :: ds) t 10 hall (by decide)
  have h45 : d ≠ 45 := fun e => hsg (Or.inl e)
  have h10 : isspace 10 = true := by decide
  have hws : (10 :: (d :: ds ++ 10 :: t)).takeWhile isspace = [10] := by
    simp [List.takeWhile_cons, h10, hsp]
  have hr : (10 :: (d :: ds ++ 10 :: t)).dropWhile isspace = d :: ds ++ 10 :: t := by
    simp [List.dropWhile_cons, h10, hsp]
  unfold fscanf_d
  rw [h]
  simp only [hws, hr]
  simp only [List.cons_append] at htw ⊢
  have h43 : d ≠ 43 := fun e => hsg (Or.inr e)
  simp [htw, h45, h43]

theorem toInt32_natCast (n : Nat) (h : n < 2 ^ 31) : toInt32 (n : Int) = n := by
  unfold toInt32
  have h' : (n : Int) < 2147483648 := by exact_mod_cast h
  norm_num
  omega

theorem toInt32_clampLong_of_lt (n : Nat) (h : n < 2 ^ 31) : toInt32 (clampLong (n : Int)) = n := by
  unfold toInt32 clampLong
  have h' : (n : Int) < 2147483648 := by exact_mod_cast h
  norm_num
  omega

theorem digitsValue_foldl (ds : List Nat) : ∀ a : Nat,
    ds.foldl (fun acc d => 10 * acc + (d - 48)) a = a * 10 ^ ds.length + digitsValue ds := by
  induction ds with
  | nil => intro a; simp [digitsValue]
  | cons d ds ih =>
    intro a
    unfold digitsValue
    simp only [List.foldl_cons, List.length_cons]
    rw [ih (10 * a + (d - 48)), ih (10 * 0 + (d - 48))]
    ring

theorem digitsValue_cons (d : Nat) (ds : List Nat) :
    digitsValue (d :: ds) = (d - 48) * 10 ^ ds.length + digitsValue ds := by
  have := digitsValue_foldl ds (10 * 0 + (d - 48))
  simpa [digitsValue] using this

theorem decimalDigits_value (fuel : Nat) : ∀ (n : Nat) (acc : List Nat), n < fuel →
    digitsValue (decimalDigits fuel n acc) = n * 10 ^ acc.length + digitsValue acc := by
  induction fuel with
  | zero => intro n acc h; omega
  | succ f ih =>
    intro n acc h
    unfold decimalDigits
    split
    · rw [digitsValue_cons]; simp
    · rename_i h10
      rw [ih (n / 10) _ (by omega), digitsValue_cons]
      simp only [List.length_cons, Nat.add_sub_cancel_left, pow_succ]
      have := Nat.div_add_mod n 10
      generalize n / 10 = q at *
      generalize n % 10 = r at *
      subst this
      ring

theorem decimalDigits_isdigit (fuel : Nat) : ∀ (n : Nat) (acc : List Nat),
    (∀ x ∈ acc, isdigit x = true) → ∀ x ∈ decimalDigits fuel n acc, isdigit x = true := by
  induction fuel with
  | zero => intro n acc h; simpa [decimalDigits] using h
  | succ f ih =>
    intro n acc h
    unfold decimalDigits
    split
    · rename_i h10
      intro x hx
      rcases List.mem_cons.mp hx with rfl | hx
      · simp [isdigit]; omega
      · exact h x hx
    · apply ih
      intro x hx
      rcases List.mem_cons.mp hx with rfl | hx
      · simp [isdigit]; omega
      · exact h x hx

theorem decimalDigits_ne_nil (fuel : Nat) : ∀ (n : Nat) (acc : List Nat), n < fuel →
    decimalDigits fuel n acc ≠ [] := by
  induction fuel with
  | zero => intro n acc h; omega
  | succ f ih =>
    intro n acc h
    unfold decimalDigits
    split
    · simp
    · exact ih _ _ (by omega)

theorem fprintf_d_ofNat (n : Nat) : fprintf_d (n : Int) = decimalDigits (n + 1) n [] := by
  unfold fprintf_d
  simp

theorem fscanf_d_fprintf_d (stream : FILE) (n : Nat) (t : List Nat) (hn : n < 2 ^ 31)
    (h : stream.content.drop stream.pos = 10 :: (fprintf_d (n : Int) ++ 10 :: t)) :
    fscanf_d stream = (some (n : Int),
      { stream with pos := stream.pos + 1 + (fprintf_d (n : Int)).length }) := by
  rw [fprintf_d_ofNat] at h ⊢
  have hv := decimalDigits_value (n + 1) n [] (Nat.lt_succ_self n)
  have hall := decimalDigits_isdigit (n + 1) n [] (by simp)
  have hne := decimalDigits_ne_nil (n + 1) n [] (Nat.lt_succ_self n)
  generalize decimalDigits (n + 1) n [] = ds at *
  cases ds with
  | nil => exact absurd rfl hne
  | cons d ds =>
    rw [fscanf_d_digits stream d ds t hall h, hv]
    simp [digitsValue, toInt32_clampLong_of_lt n hn]

/-! ## open on a header written by create -/

theorem ascii_P1 : ascii "P1" = [80, 49] := rfl
theorem ascii_P2 : ascii "P2" = [80, 50] := rfl
theorem ascii_P3 : ascii "P3" = [80, 51] := rfl
theorem ascii_P4 : ascii "P4" = [80, 52] := rfl
theorem ascii_P5 : ascii "P5" = [80, 53] := rfl
theorem ascii_P6 : ascii "P6" = [80, 54] := rfl

/-- The header `create` emits, followed by `data`. -/
theorem openStream_created (self : DiskImageResourcePBM) (u : OpenLocals) (c r m : Nat)
    (data : List Nat) (hc : c < 2 ^ 31) (hr : r < 2 ^ 31) (hm : m < 2 ^ 31) :
    openStream self u
      ⟨80 :: 53 :: 10 :: (fprintf_d (c : Int) ++ 10 :: (fprintf_d (r : Int) ++ 10 ::
        (fprintf_d (m : Int) ++ 10 :: data))), 0⟩ =
    if (m : Int) ≤ 0 ∨ (m : Int) ≥ 255 then
      .throws .IOErr { self with
        m_magic := [80, 53], m_max_value := m,
        m_image_data_position := 3 + (fprintf_d (c : Int)).length + 1 +
          (fprintf_d (r : Int)).length + 1 + (fprintf_d (m : Int)).length }
    else
      .returns { self with
        m_magic := [80, 53], m_max_value := m,
        m_image_data_position := 3 + (fprintf_d (c : Int)).length + 1 +
          (fprintf_d (r : Int)).length + 1 + (fprintf_d (m : Int)).length,
        m_format := { self.m_format with
          cols := c, rows := r, planes := 1,
          channel_type := .VW_CHANNEL_UINT8, pixel_format := .VW_PIXEL_GRAY } } := by
  generalize hdc : fprintf_d (c : Int) = dc
  generalize hdr : fprintf_d (r : Int) = dr
  generalize hdm : fprintf_d (m : Int) = dm
  generalize hcontent : (80 :: 53 :: 10 :: (dc ++ 10 :: (dr ++ 10 :: (dm ++ 10 :: data)))) = content
  have d1 : content.drop 0 = 80 :: 53 :: 10 :: (dc ++ 10 :: (dr ++ 10 :: (dm ++ 10 :: data))) := by
    simp [← hcontent]
  have e1 : skip_any_comments ⟨content, 0⟩ = some ⟨content, 0⟩ :=
    skip_any_comments_of_ne _ 80 _ d1 (by decide)
  have e2 : fscanf_s 2048 ⟨content, 0⟩ = some (some [80, 53], ⟨content, 2⟩) := by
    have h80 : isspace 80 = false := by decide
    have h53 : isspace 53 = false := by decide
    have h10 : isspace 10 = true := by decide
    simp [fscanf_s, ← hcontent, List.takeWhile_cons, List.dropWhile_cons, h80, h53, h10]
  have d3 : content.drop 2 = 10 :: (dc ++ 10 :: (dr ++ 10 :: (dm ++ 10 :: data))) := by
    simp [← hcontent]
  have e3 : skip_any_comments ⟨content, 2⟩ = some ⟨content, 2⟩ :=
    skip_any_comments_of_ne _ 10 _ d3 (by decide)
  have e4 : fscanf_d ⟨content, 2⟩ = (some (c : Int), ⟨content, 2 + 1 + dc.length⟩) := by
    have := fscanf_d_fprintf_d ⟨content, 2⟩ c _ hc (by rw [hdc]; exact d3)
    rw [hdc] at this
    exact this
  have d5 : content.drop (2 + 1 + dc.length) = 10 :: (dr ++ 10 :: (dm ++ 10 :: data)) := by
    have : content = (80 :: 53 :: 10 :: dc) ++ (10 :: (dr ++ 10 :: (dm ++ 10 :: data))) := by
      simp [← hcontent]
    rw [this]
    exact List.drop_left' (by simp; omega)
  have e5 : skip_any_comments ⟨content, 2 + 1 + dc.length⟩ = some ⟨content, 2 + 1 + dc.length⟩ :=
    skip_any_comments_of_ne _ 10 _ d5 (by decide)
  have e6 : fscanf_d ⟨content, 2 + 1 + dc.length⟩ =
      (some (r : Int), ⟨content, 2 + 1 + dc.length + 1 + dr.length⟩) := by
    have := fscanf_d_fprintf_d ⟨content, 2 + 1 + dc.length⟩ r _ hr (by rw [hdr]; exact d5)
    rw [hdr] at this
    exact this
  have d7 : content.drop (2 + 1 + dc.length + 1 + dr.length) = 10 :: (dm ++ 10 :: data) := by
    have : content = (80 :: 53 :: 10 :: (dc ++ 10 :: dr)) ++ (10 :: (dm ++ 10 :: data)) := by
      simp [← hcontent]
    rw [this]
    exact List.drop_left' (by simp; omega)
  have e7 : skip_any_comments ⟨content, 2 + 1 + dc.length + 1 + dr.length⟩ =
      some ⟨content, 2 + 1 + dc.length + 1 + dr.length⟩ :=
    skip_any_comments_of_ne _ 10 _ d7 (by decide)
  have e8 : fscanf_d ⟨content, 2 + 1 + dc.length + 1 + dr.length⟩ =
      (some (m : Int), ⟨content, 2 + 1 + dc.length + 1 + dr.length + 1 + dm.length⟩) := by
    have := fscanf_d_fprintf_d ⟨content, 2 + 1 + dc.length + 1 + dr.length⟩ m _ hm
      (by rw [hdm]; exact d7)
    rw [hdm] at this
    exact this
  have hcs : cstring [80, 53] = [80, 53] := by decide
  unfold openStream
  simp only [e1, e2, e3, e4, e5, e6, e7, e8, Option.getD_some, hcs, imax,
    ascii_P1, ascii_P2, ascii_P3, ascii_P4, ascii_P5, ascii_P6]
  simp

/-! ## What a successful open guarantees -/

theorem openStream_returns_inv (self : DiskImageResourcePBM) (u : OpenLocals) (f : FILE)
    (r : DiskImageResourcePBM) (h : openStream self u f = .returns r) :
    0 < r.m_max_value ∧ r.m_max_value < 255 ∧
      ((r.m_magic = ascii "P1" ∨ r.m_magic = ascii "P4") → r.m_max_value = 1) ∧
      (r.m_magic = ascii "P1" ∨ r.m_magic = ascii "P2" ∨ r.m_magic = ascii "P4" ∨
        r.m_magic = ascii "P5") ∧ r.m_format.planes = 1 := by
  unfold openStream at h
  simp only [imax] at h
  repeat' split at h
  all_goals try (simp only [reduceCtorEq] at h)
  all_goals simp only [Outcome.returns.injEq] at h
  all_goals subst h
  all_goals dsimp only
  · rename_i m s9 heq hm hmag
    rw [if_neg (by rcases hmag with h | h <;> simp [h])] at heq
    simp only [Option.some.injEq, Prod.mk.injEq] at heq
    refine ⟨by omega, by omega, fun _ => heq.1.symm, ?_, rfl⟩
    rcases hmag with h | h
    · exact Or.inl h
    · exact Or.inr (Or.inr (Or.inl h))
  · rename_i m s9 heq hm hn hmag
    refine ⟨by omega, by omega, fun h => absurd h hn, ?_, rfl⟩
    rcases hmag with h | h
    · exact Or.inr (Or.inl h)
    · exact Or.inr (Or.inr (Or.inr h))

/-! ## open along a scanned header -/

theorem openStream_bad_max (self : DiskImageResourcePBM) (u : OpenLocals) (f : FILE)
    (s1 : FILE) (tok : List Nat) (s2 s3 : FILE) (w : Option Int) (s4 s5 : FILE)
    (h : Option Int) (s6 s7 : FILE) (v : Int) (s8 : FILE)
    (h1 : skip_any_comments f = some s1) (h2 : fscanf_s 2048 s1 = some (some tok, s2))
    (hmag : cstring tok = ascii "P2" ∨ cstring tok = ascii "P3" ∨ cstring tok = ascii "P5" ∨
      cstring tok = ascii "P6")
    (h3 : skip_any_comments s2 = some s3) (h4 : fscanf_d s3 = (w, s4))
    (h5 : skip_any_comments s4 = some s5) (h6 : fscanf_d s5 = (h, s6))
    (h7 : skip_any_comments s6 = some s7) (h8 : fscanf_d s7 = (some v, s8))
    (hv : v ≤ 0 ∨ v ≥ 255) :
    openStream self u f = .throws .IOErr
      { self with m_magic := cstring tok, m_max_value := v, m_image_data_position := s8.pos } := by
  unfold openStream
  simp only [h1, h2, h3, h4, h5, h6, Option.getD_some]
  rcases hmag with hm | hm | hm | hm <;>
    simp [hm, h7, h8, imax, hv, ascii_P1, ascii_P2, ascii_P3, ascii_P4, ascii_P5, ascii_P6]

theorem openStream_good (self : DiskImageResourcePBM) (u : OpenLocals) (f : FILE)
    (s1 : FILE) (tok : List Nat) (s2 s3 : FILE) (wv : Int) (s4 s5 : FILE)
    (hv : Int) (s6 : FILE)
    (h1 : skip_any_comments f = some s1) (h2 : fscanf_s 2048 s1 = some (some tok, s2))
    (h3 : skip_any_comments s2 = some s3) (h4 : fscanf_d s3 = (some wv, s4))
    (h5 : skip_any_comments s4 = some s5) (h6 : fscanf_d s5 = (some hv, s6))
    (hcase : (cstring tok = ascii "P1" ∨ cstring tok = ascii "P4") ∨
      ((cstring tok = ascii "P2" ∨ cstring tok = ascii "P5") ∧
        ∃ s7 m s8, skip_any_comments s6 = some s7 ∧ fscanf_d s7 = (some m, s8) ∧
          0 < m ∧ m < 255)) :
    ∃ r, openStream self u f = .returns r ∧ r.m_format.cols = wv ∧ r.m_format.rows = hv := by
  unfold openStream
  simp only [h1, h2, h3, h4, h5, h6, Option.getD_some]
  rcases hcase with (hm | hm) | ⟨hm | hm, s7, m, s8, h7, h8, hlo, hhi⟩
  · simp [hm, imax, ascii_P1, ascii_P2, ascii_P3, ascii_P4, ascii_P5, ascii_P6]
  · simp [hm, imax, ascii_P1, ascii_P2, ascii_P3, ascii_P4, ascii_P5, ascii_P6]
  · have hr : ¬ (m ≤ 0 ∨ m ≥ 255) := by omega
    simp [hm, h7, h8, imax, hr, ascii_P1, ascii_P2, ascii_P3, ascii_P4, ascii_P5, ascii_P6]
  · have hr : ¬ (m ≤ 0 ∨ m ≥ 255) := by omega
    simp [hm, h7, h8, imax, hr, ascii_P1, ascii_P2, ascii_P3, ascii_P4, ascii_P5, ascii_P6]

/-! ## Claims on open -/

/-- Claim C1, run on its witness.  With the comment line after the newline that
ends the magic, `open` leaves the width as it was, stores 2 as the number of
rows and 1 as max-value, and records offset 16; without the comment line it
stores 2 columns, 1 row and max-value 100. -/
theorem open_misreads_header_after_comment_line (self : DiskImageResourcePBM)
    (fs : FileSystem) (u : OpenLocals) :
    open_ self (fs.store "a.pbm" (ascii "P2\n# comment\n2 1\n100\n50 100\n")) "a.pbm" u =
      .returns { self with
        m_magic := ascii "P2", m_max_value := 1, m_image_data_position := 16,
        m_format := { self.m_format with
          cols := u.iwidth, rows := 2, planes := 1,
          channel_type := .VW_CHANNEL_UINT8, pixel_format := .VW_PIXEL_GRAY } } ∧
    open_ self (fs.store "a.pbm" (ascii "P2\n2 1\n100\n50 100\n")) "a.pbm" u =
      .returns { self with
        m_magic := ascii "P2", m_max_value := 100, m_image_data_position := 10,
        m_format := { self.m_format with
          cols := 2, rows := 1, planes := 1,
          channel_type := .VW_CHANNEL_UINT8, pixel_format := .VW_PIXEL_GRAY } } := by
  constructor <;> rfl

/-- Claim C5, run on its witness.  For the header `P5\n1\n1\n1\n` followed by the
data byte 0, `open` records offset 8, where the newline after the max-value
sits, and `read` then stages that newline (10, above the max-value 1, hence
255) in place of the data byte at offset 9; `create` records 9 for the same
header. -/
theorem open_records_offset_of_separator :
    ∃ o st,
      construct_open leftover (noFiles.store "a.pbm" (ascii "P5\n1\n1\n1\n" ++ [0])) "a.pbm"
        leftoverLocals = .returns o ∧
      o.m_image_data_position = 8 ∧
      (ascii "P5\n1\n1\n1\n" ++ [0])[8]? = some 10 ∧
      (ascii "P5\n1\n1\n1\n" ++ [0])[9]? = some 0 ∧
      read_staged o (noFiles.store "a.pbm" (ascii "P5\n1\n1\n1\n" ++ [0]))
        (bufferOf (grayFormat 1 1 .VW_CHANNEL_UINT8) [])
        (fullBox (grayFormat 1 1 .VW_CHANNEL_UINT8)) leftoverRead =
        .ok (bufferOf (grayFormat 1 1 .VW_CHANNEL_UINT8) [255]) ∧
      create leftover noFiles "a.pbm" (grayFormat 1 1 .VW_CHANNEL_BOOL) = .returns st ∧
      st.fs "a.pbm" = some (ascii "P5\n1\n1\n1\n") ∧
      st.self.m_image_data_position = 9 :=
  ⟨_, _, rfl, rfl, rfl, rfl, rfl, rfl, rfl, rfl⟩

/-- Claim C6, run on well-formed P6 and P3 headers: `open` stores the RGB
descriptor and then throws `IOErr`, the P3/P6 case running on into the
`default` case of the switch. -/
theorem open_throws_on_rgb_magic (self : DiskImageResourcePBM) (fs : FileSystem)
    (u : OpenLocals) :
    open_ self (fs.store "a.ppm" (ascii "P6\n1\n1\n100\n" ++ [10, 20, 30])) "a.ppm" u =
      .throws .IOErr { self with
        m_magic := ascii "P6", m_max_value := 100, m_image_data_position := 10,
        m_format := { self.m_format with
          cols := 1, rows := 1, planes := 1,
          channel_type := .VW_CHANNEL_UINT8, pixel_format := .VW_PIXEL_RGB } } ∧
    open_ self (fs.store "a.ppm" (ascii "P3\n1\n1\n100\n10 20 30\n")) "a.ppm" u =
      .throws .IOErr { self with
        m_magic := ascii "P3", m_max_value := 100, m_image_data_position := 10,
        m_format := { self.m_format with
          cols := 1, rows := 1, planes := 1,
          channel_type := .VW_CHANNEL_UINT8, pixel_format := .VW_PIXEL_RGB } } := by
  constructor <;> rfl

/-- Claim C9: a header with magic P2, P3, P5 or P6 whose max-value token scans as
`v` with `v ≤ 0` or `v ≥ 255` makes `open` throw, the stream having been read
no further than the end of that token; and every object a successful `open`
returns has `0 < m_max_value < 255`, with `m_max_value = 1` for P1 and P4. -/
theorem open_max_value_guard :
    (∀ (self : DiskImageResourcePBM) (fs : FileSystem) (filename : String) (u : OpenLocals)
      (bytes : List Nat) (s1 : FILE) (tok : List Nat) (s2 s3 : FILE) (w : Option Int)
      (s4 s5 : FILE) (h : Option Int) (s6 s7 : FILE) (v : Int) (s8 : FILE),
      fs filename = some bytes →
      skip_any_comments ⟨bytes, 0⟩ = some s1 → fscanf_s 2048 s1 = some (some tok, s2) →
      (cstring tok = ascii "P2" ∨ cstring tok = ascii "P3" ∨ cstring tok = ascii "P5" ∨
        cstring tok = ascii "P6") →
      skip_any_comments s2 = some s3 → fscanf_d s3 = (w, s4) →
      skip_any_comments s4 = some s5 → fscanf_d s5 = (h, s6) →
      skip_any_comments s6 = some s7 → fscanf_d s7 = (some v, s8) →
      (v ≤ 0 ∨ v ≥ 255) →
      ∃ st, open_ self fs filename u = .throws .IOErr st ∧ st.m_max_value = v ∧
        st.m_image_data_position = s8.pos) ∧
    (∀ (self : DiskImageResourcePBM) (fs : FileSystem) (filename : String) (u : OpenLocals)
      (r : DiskImageResourcePBM), open_ self fs filename u = .returns r →
      0 < r.m_max_value ∧ r.m_max_value < 255 ∧
        ((r.m_magic = ascii "P1" ∨ r.m_magic = ascii "P4") → r.m_max_value = 1)) := by
  constructor
  · intro self fs filename u bytes s1 tok s2 s3 w s4 s5 h s6 s7 v s8 hf h1 h2 hmag h3 h4 h5 h6
      h7 h8 hv
    have hthrow := openStream_bad_max self u _ s1 tok s2 s3 w s4 s5 h s6 s7 v s8 h1 h2 hmag
      h3 h4 h5 h6 h7 h8 hv
    refine ⟨{ self with
      m_magic := cstring tok, m_max_value := v, m_image_data_position := s8.pos }, ?_, rfl, rfl⟩
    simp only [open_, hf]
    exact hthrow
  · intro self fs filename u r hr
    unfold open_ at hr
    split at hr
    · simp only [reduceCtorEq] at hr
    · have := openStream_returns_inv self u _ r hr
      exact ⟨this.1, this.2.1, this.2.2.1⟩

/-- Witness of `open_max_value_guard`: a P5 header with max-value 300 is refused,
and the P4 header that opens has max-value 1. -/
theorem open_max_value_guard_witness :
    (∃ st, open_ leftover (noFiles.store "a.pbm" (ascii "P5\n1\n1\n300\n")) "a.pbm"
        leftoverLocals = .throws .IOErr st ∧ st.m_max_value = 300 ∧
        st.m_image_data_position = 10) ∧
    (0 < (1 : Int) ∧ (1 : Int) < 255 ∧
      ((ascii "P4" = ascii "P1" ∨ ascii "P4" = ascii "P4") → (1 : Int) = 1)) :=
  ⟨open_max_value_guard.1 leftover (noFiles.store "a.pbm" (ascii "P5\n1\n1\n300\n")) "a.pbm"
      leftoverLocals (ascii "P5\n1\n1\n300\n") ⟨ascii "P5\n1\n1\n300\n", 0⟩ (ascii "P5")
      ⟨ascii "P5\n1\n1\n300\n", 2⟩ ⟨ascii "P5\n1\n1\n300\n", 2⟩ (some 1)
      ⟨ascii "P5\n1\n1\n300\n", 4⟩ ⟨ascii "P5\n1\n1\n300\n", 4⟩ (some 1)
      ⟨ascii "P5\n1\n1\n300\n", 6⟩ ⟨ascii "P5\n1\n1\n300\n", 6⟩ 300
      ⟨ascii "P5\n1\n1\n300\n", 10⟩ rfl rfl rfl (Or.inr (Or.inr (Or.inl rfl))) rfl rfl rfl rfl
      rfl rfl (Or.inr (by decide)),
   open_max_value_guard.2 leftover (noFiles.store "b.pbm" (ascii "P4 3 4 ")) "b.pbm"
      leftoverLocals
      { leftover with
        m_magic := ascii "P4", m_max_value := 1, m_image_data_position := 6,
        m_format := grayFormat 3 4 .VW_CHANNEL_BOOL } rfl⟩

/-- Claim C10, as stated, fails: the width token of `P5\n0\n5\n100\n` scans as 0
and `open` returns a descriptor of 0 columns. -/
theorem open_accepts_zero_width :
    (fscanf_d ⟨ascii "P5\n0\n5\n100\n", 2⟩).1 = some 0 ∧
    open_ leftover (noFiles.store "a.pbm" (ascii "P5\n0\n5\n100\n")) "a.pbm" leftoverLocals =
      .returns { leftover with
        m_magic := ascii "P5", m_max_value := 100, m_image_data_position := 10,
        m_format := grayFormat 0 5 .VW_CHANNEL_UINT8 } :=
  ⟨rfl, rfl⟩

/-- Claim C10, amended: `open` does not test the width or the height.  For a
header with magic P1 or P4, or with magic P2 or P5 and a max-value strictly
between 0 and 255, `open` returns whatever integers the width and height
tokens scan as, and the descriptor holds exactly those integers. -/
theorem open_does_not_check_dimensions (self : DiskImageResourcePBM) (fs : FileSystem)
    (filename : String) (u : OpenLocals) (bytes : List Nat) (s1 : FILE) (tok : List Nat)
    (s2 s3 : FILE) (wv : Int) (s4 s5 : FILE) (hv : Int) (s6 : FILE)
    (hf : fs filename = some bytes)
    (h1 : skip_any_comments ⟨bytes, 0⟩ = some s1) (h2 : fscanf_s 2048 s1 = some (some tok, s2))
    (h3 : skip_any_comments s2 = some s3) (h4 : fscanf_d s3 = (some wv, s4))
    (h5 : skip_any_comments s4 = some s5) (h6 : fscanf_d s5 = (some hv, s6))
    (hcase : (cstring tok = ascii "P1" ∨ cstring tok = ascii "P4") ∨
      ((cstring tok = ascii "P2" ∨ cstring tok = ascii "P5") ∧
        ∃ s7 m s8, skip_any_comments s6 = some s7 ∧ fscanf_d s7 = (some m, s8) ∧
          0 < m ∧ m < 255)) :
    ∃ r, open_ self fs filename u = .returns r ∧ r.m_format.cols = wv ∧
      r.m_format.rows = hv := by
  simp only [open_, hf]
  exact openStream_good self u _ s1 tok s2 s3 wv s4 s5 hv s6 h1 h2 h3 h4 h5 h6 hcase

/-- Witness of `open_does_not_check_dimensions`: width 0 and height -5 under P2. -/
theorem open_does_not_check_dimensions_witness :
    ∃ r, open_ leftover (noFiles.store "a.pgm" (ascii "P2\n0 -5\n100\n")) "a.pgm"
      leftoverLocals = .returns r ∧ r.m_format.cols = 0 ∧ r.m_format.rows = -5 :=
  open_does_not_check_dimensions leftover (noFiles.store "a.pgm" (ascii "P2\n0 -5\n100\n"))
    "a.pgm" leftoverLocals (ascii "P2\n0 -5\n100\n") ⟨ascii "P2\n0 -5\n100\n", 0⟩ (ascii "P2")
    ⟨ascii "P2\n0 -5\n100\n", 2⟩ ⟨ascii "P2\n0 -5\n100\n", 2⟩ 0
    ⟨ascii "P2\n0 -5\n100\n", 4⟩ ⟨ascii "P2\n0 -5\n100\n", 4⟩ (-5)
    ⟨ascii "P2\n0 -5\n100\n", 7⟩ rfl rfl rfl rfl rfl rfl rfl
    (Or.inr ⟨Or.inl rfl, ⟨ascii "P2\n0 -5\n100\n", 7⟩, 100, ⟨ascii "P2\n0 -5\n100\n", 11⟩,
      rfl, rfl, by decide, by decide⟩)

/-! ## create, write and open together -/

theorem FileSystem.store_same (fs : FileSystem) (name : String) (bytes : List Nat) :
    fs.store name bytes name = some bytes := by
  simp [FileSystem.store]

theorem created_content (dc dr : List Nat) (m : Nat) (mx data : List Nat)
    (hmx : mx = fprintf_d (m : Int) ++ [10]) :
    ascii "P5\n" ++ (dc ++ ascii "\n") ++ (dr ++ ascii "\n") ++ mx ++ data =
      80 :: 53 :: 10 :: (dc ++ 10 :: (dr ++ 10 :: (fprintf_d (m : Int) ++ 10 :: data))) := by
  have h1 : ascii "P5\n" = [80, 53, 10] := rfl
  have h2 : ascii "\n" = [10] := rfl
  rw [h1, h2, hmx]
  simp

theorem create_returns (self : DiskImageResourcePBM) (fs : FileSystem) (filename : String)
    (format : ImageFormat) (mx : List Nat) (hplanes : format.planes = 1)
    (h : (format.channel_type = .VW_CHANNEL_BOOL ∧ mx = ascii "1\n") ∨
      (format.channel_type = .VW_CHANNEL_UINT8 ∧ mx = ascii "255\n") ∨
      (format.channel_type = .VW_CHANNEL_UINT16 ∧ mx = ascii "65535\n")) :
    create self fs filename format = .returns
      ⟨{ self with
          m_filename := filename, m_format := format,
          m_image_data_position :=
            (ascii "P5\n" ++ (fprintf_d format.cols ++ ascii "\n") ++
              (fprintf_d format.rows ++ ascii "\n") ++ mx).length },
        fs.store filename
          (ascii "P5\n" ++ (fprintf_d format.cols ++ ascii "\n") ++
            (fprintf_d format.rows ++ ascii "\n") ++ mx), []⟩ := by
  rcases h with ⟨h, rfl⟩ | ⟨h, rfl⟩ | ⟨h, rfl⟩ <;>
    simp only [create, hplanes, h, ne_eq, not_true_eq_false, if_false]

theorem write_returns (convert : ImageBuffer → ImageBuffer → Bool → List Nat)
    (self : DiskImageResourcePBM) (fs : FileSystem) (src : ImageBuffer) (bbox : BBox2i)
    (hb : bbox.width = self.m_format.cols ∧ bbox.height = self.m_format.rows)
    (hs : src.format.cols = self.m_format.cols ∧ src.format.rows = self.m_format.rows)
    (hchan : self.m_format.channel_type = .VW_CHANNEL_BOOL ∨
      self.m_format.channel_type = .VW_CHANNEL_UINT8 ∨
      self.m_format.channel_type = .VW_CHANNEL_UINT16)
    (hnn : ¬ toInt32 (self.m_format.cols * self.m_format.rows) < 0) :
    ∃ data, write convert self fs src bbox =
      .returns (fs.store self.m_filename ((fs self.m_filename).getD [] ++ data)) := by
  rcases hchan with h | h | h <;>
    exact ⟨_, by simp only [write, hb, hs, h, hnn, and_self, not_true_eq_false, if_false]; rfl⟩

/-- Claim C7, amended: for `cols ≥ 1` and `rows ≥ 1` with `cols`, `rows` and
`cols * rows` within 32 bits, a destination channel type among boolean, 8-bit
and 16-bit and a source buffer of `cols` by `rows`, `create` followed by
`write` returns; `open` accepts the file produced, with
the same columns and rows, when the channel type is boolean, and throws
`IOErr` when it is 16-bit, the max-value 65535 that `create` wrote being
outside the 8-bit range `open` supports. -/
theorem open_after_create_write (convert : ImageBuffer → ImageBuffer → Bool → List Nat)
    (self init1 : DiskImageResourcePBM) (fs : FileSystem) (filename : String)
    (format : ImageFormat) (src : ImageBuffer) (u : OpenLocals) (c r : Nat)
    (_hc1 : 1 ≤ c) (hc : c < 2 ^ 31) (_hr1 : 1 ≤ r) (hr : r < 2 ^ 31) (hn : c * r < 2 ^ 31)
    (hplanes : format.planes = 1) (hcols : format.cols = c) (hrows : format.rows = r)
    (hsrc : src.format.cols = c ∧ src.format.rows = r)
    (hchan : format.channel_type = .VW_CHANNEL_BOOL ∨ format.channel_type = .VW_CHANNEL_UINT8 ∨
      format.channel_type = .VW_CHANNEL_UINT16) :
    ∃ st fs1, create self fs filename format = .returns st ∧
      write convert st.self st.fs src (fullBox format) = .returns fs1 ∧
      (format.channel_type = .VW_CHANNEL_BOOL →
        ∃ o, construct_open init1 fs1 filename u = .returns o ∧
          o.m_format.cols = c ∧ o.m_format.rows = r) ∧
      (format.channel_type = .VW_CHANNEL_UINT16 →
        ∃ o, construct_open init1 fs1 filename u = .throws .IOErr o) := by
  have m1 : ascii "1\n" = fprintf_d ((1 : Nat) : Int) ++ [10] := by decide
  have m255 : ascii "255\n" = fprintf_d ((255 : Nat) : Int) ++ [10] := by decide
  have m65535 : ascii "65535\n" = fprintf_d ((65535 : Nat) : Int) ++ [10] := by decide
  have hmx : ∃ mx : List Nat, ∃ m : Nat, mx = fprintf_d (m : Int) ++ [10] ∧ m < 2 ^ 31 ∧
      (format.channel_type = .VW_CHANNEL_BOOL → m = 1) ∧
      (format.channel_type ≠ .VW_CHANNEL_BOOL → 255 ≤ m) ∧
      ((format.channel_type = .VW_CHANNEL_BOOL ∧ mx = ascii "1\n") ∨
      (format.channel_type = .VW_CHANNEL_UINT8 ∧ mx = ascii "255\n") ∨
      (format.channel_type = .VW_CHANNEL_UINT16 ∧ mx = ascii "65535\n")) := by
    rcases hchan with h | h | h
    · exact ⟨_, 1, m1, by decide, fun _ => rfl, fun hn => absurd h hn, Or.inl ⟨h, rfl⟩⟩
    · refine ⟨_, 255, m255, by decide, ?_, fun _ => le_refl _, Or.inr (Or.inl ⟨h, rfl⟩)⟩
      intro hb
      rw [h] at hb
      cases hb
    · refine ⟨_, 65535, m65535, by decide, ?_, fun _ => by decide, Or.inr (Or.inr ⟨h, rfl⟩)⟩
      intro hb
      rw [h] at hb
      cases hb
  obtain ⟨mx, m, hmxe, hm31, hmb, hmn, hcase⟩ := hmx
  have hcr := create_returns self fs filename format mx hplanes hcase
  obtain ⟨data, hw⟩ := write_returns convert
    { self with
      m_filename := filename, m_format := format,
      m_image_data_position :=
        (ascii "P5\n" ++ (fprintf_d format.cols ++ ascii "\n") ++
          (fprintf_d format.rows ++ ascii "\n") ++ mx).length }
    (fs.store filename
      (ascii "P5\n" ++ (fprintf_d format.cols ++ ascii "\n") ++
        (fprintf_d format.rows ++ ascii "\n") ++ mx))
    src (fullBox format) ⟨rfl, rfl⟩ (by rw [hcols, hrows]; exact hsrc) hchan
    (by
      show ¬ toInt32 (format.cols * format.rows) < 0
      rw [hcols, hrows, ← Int.natCast_mul, toInt32_natCast _ hn]
      omega)
  refine ⟨_, _, hcr, hw, ?_, ?_⟩
  · intro hb
    have hm := hmb hb
    subst hm
    simp only [construct_open, open_, FileSystem.store_same, Option.getD_some, hcols, hrows]
    rw [created_content _ _ 1 _ _ hmxe, openStream_created _ _ c r 1 _ hc hr (by decide)]
    simp
  · intro h16
    have hm := hmn (by rw [h16]; decide)
    simp only [construct_open, open_, FileSystem.store_same, Option.getD_some, hcols, hrows]
    rw [created_content _ _ m _ _ hmxe, openStream_created _ _ c r m _ hc hr hm31]
    have : ((m : Int) ≤ 0 ∨ (m : Int) ≥ 255) := Or.inr (by exact_mod_cast hm)
    rw [if_pos this]
    exact ⟨_, rfl⟩

/-- Witness of `open_after_create_write`: a boolean image of 2 columns and 3 rows. -/
theorem open_after_create_write_witness :
    ∃ st fs1, create leftover noFiles "a.pbm" (grayFormat 2 3 .VW_CHANNEL_BOOL) = .returns st ∧
      write convert_same st.self st.fs
        (bufferOf (grayFormat 2 3 .VW_CHANNEL_BOOL) [1, 0, 1, 1, 0, 0])
        (fullBox (grayFormat 2 3 .VW_CHANNEL_BOOL)) = .returns fs1 ∧
      ((grayFormat 2 3 .VW_CHANNEL_BOOL).channel_type = .VW_CHANNEL_BOOL →
        ∃ o, construct_open leftover fs1 "a.pbm" leftoverLocals = .returns o ∧
          o.m_format.cols = ((2 : Nat) : Int) ∧ o.m_format.rows = ((3 : Nat) : Int)) ∧
      ((grayFormat 2 3 .VW_CHANNEL_BOOL).channel_type = .VW_CHANNEL_UINT16 →
        ∃ o, construct_open leftover fs1 "a.pbm" leftoverLocals = .throws .IOErr o) :=
  open_after_create_write convert_same leftover leftover noFiles "a.pbm"
    (grayFormat 2 3 .VW_CHANNEL_BOOL)
    (bufferOf (grayFormat 2 3 .VW_CHANNEL_BOOL) [1, 0, 1, 1, 0, 0]) leftoverLocals 2 3
    (by decide) (by decide) (by decide) (by decide) (by decide) rfl rfl rfl ⟨rfl, rfl⟩
    (Or.inl rfl)

/-- Claim C7, as stated, fails: `create` and `write` of a 1 by 1 buffer of 16-bit
grey holding 7 produce `P5\n1\n1\n65535\n` and the bytes 7 and 0, and `open`
throws `IOErr` on that file; likewise for 8-bit grey and `P5\n1\n1\n255\n`.
For 46341 by 46341, whose product does not fit 32 bits, `num_pixels` is
negative and `write` throws `std::bad_alloc`. -/
theorem created_gray_files_rejected_by_open :
    (∃ st fs1 o,
      create leftover noFiles "a.pbm" (grayFormat 1 1 .VW_CHANNEL_UINT16) = .returns st ∧
      write convert_same st.self st.fs (bufferOf (grayFormat 1 1 .VW_CHANNEL_UINT16) [7])
        (fullBox (grayFormat 1 1 .VW_CHANNEL_UINT16)) = .returns fs1 ∧
      fs1 "a.pbm" = some (ascii "P5\n1\n1\n65535\n" ++ [7, 0]) ∧
      construct_open leftover fs1 "a.pbm" leftoverLocals = .throws .IOErr o) ∧
    (∃ st fs1 o,
      create leftover noFiles "a.pbm" (grayFormat 1 1 .VW_CHANNEL_UINT8) = .returns st ∧
      write convert_same st.self st.fs (bufferOf (grayFormat 1 1 .VW_CHANNEL_UINT8) [7])
        (fullBox (grayFormat 1 1 .VW_CHANNEL_UINT8)) = .returns fs1 ∧
      fs1 "a.pbm" = some (ascii "P5\n1\n1\n255\n" ++ [7]) ∧
      construct_open leftover fs1 "a.pbm" leftoverLocals = .throws .IOErr o) ∧
    (∃ st fs1,
      create leftover noFiles "a.pbm" (grayFormat 46341 46341 .VW_CHANNEL_BOOL) = .returns st ∧
      toInt32 (46341 * 46341) = -2147479015 ∧
      write convert_same st.self st.fs (bufferOf (grayFormat 46341 46341 .VW_CHANNEL_BOOL) [])
        (fullBox (grayFormat 46341 46341 .VW_CHANNEL_BOOL)) = .throws .bad_alloc fs1) :=
  ⟨⟨_, _, _, rfl, rfl, rfl, rfl⟩, ⟨_, _, _, rfl, rfl, rfl, rfl⟩, ⟨_, _, rfl, rfl, rfl⟩⟩

/-- Claim C8, run on the boolean `false`: `create` and `write` produce `P5\n1\n1\n1\n`
and the byte 0; `open` records offset 8 where `create` recorded 9; `read`
stages the newline at offset 8 as 255 and the boolean read back is true. -/
theorem bool_false_reads_back_true :
    ∃ st fs1 o,
      create leftover noFiles "b.pbm" (grayFormat 1 1 .VW_CHANNEL_BOOL) = .returns st ∧
      write convert_same st.self st.fs (bufferOf (grayFormat 1 1 .VW_CHANNEL_BOOL) [0])
        (fullBox (grayFormat 1 1 .VW_CHANNEL_BOOL)) = .returns fs1 ∧
      fs1 "b.pbm" = some (ascii "P5\n1\n1\n1\n" ++ [0]) ∧
      construct_open leftover fs1 "b.pbm" leftoverLocals = .returns o ∧
      o.m_image_data_position = 8 ∧ st.self.m_image_data_position = 9 ∧
      read_staged o fs1 (bufferOf (grayFormat 1 1 .VW_CHANNEL_BOOL) [])
        (fullBox (grayFormat 1 1 .VW_CHANNEL_BOOL)) leftoverRead =
        .ok (bufferOf (grayFormat 1 1 .VW_CHANNEL_UINT8) [255]) ∧
      read convert_to_bool o fs1 (bufferOf (grayFormat 1 1 .VW_CHANNEL_BOOL) [])
        (fullBox (grayFormat 1 1 .VW_CHANNEL_BOOL)) leftoverRead = .ok [1] :=
  ⟨_, _, _, rfl, rfl, rfl, rfl, rfl, rfl, rfl, rfl⟩

/-! ## Claims on the errors of open and read -/

theorem openStream_bad_magic (self : DiskImageResourcePBM) (u : OpenLocals) (f : FILE)
    (s1 : FILE) (tok : List Nat) (s2 : FILE)
    (h1 : skip_any_comments f = some s1) (h2 : fscanf_s 2048 s1 = some (some tok, s2))
    (hmag : ¬ (cstring tok = ascii "P6" ∨ cstring tok = ascii "P5" ∨ cstring tok = ascii "P4" ∨
      cstring tok = ascii "P3" ∨ cstring tok = ascii "P2" ∨ cstring tok = ascii "P1")) :
    openStream self u f = .throws .IOErr { self with m_magic := cstring tok } := by
  unfold openStream
  simp only [h1, h2, Option.getD_some]
  rw [if_pos hmag]

theorem fscanf_s_overrun (size : Nat) (c : Nat) (hc : isspace c = false) (hs : 0 < size) :
    fscanf_s size ⟨List.replicate size c, 0⟩ = none := by
  have h1 : (List.replicate size c).takeWhile isspace = [] := by
    rw [List.takeWhile_replicate]; simp [hc]
  have h2 : (List.replicate size c).dropWhile isspace = List.replicate size c := by
    rw [List.dropWhile_replicate]; simp [hc]
  have h3 : (List.replicate size c).takeWhile (fun c => !isspace c) = List.replicate size c := by
    rw [List.takeWhile_replicate]; simp [hc]
  have h4 : List.replicate size c ≠ [] := by
    intro h
    have := congrArg List.length h
    simp at this
    omega
  simp only [fscanf_s, List.drop_zero, h1, h2, h3, h4, if_false, List.length_replicate,
    le_refl, if_true]

theorem openStream_overrun (self : DiskImageResourcePBM) (u : OpenLocals) (f s1 : FILE)
    (h1 : skip_any_comments f = some s1) (h2 : fscanf_s 2048 s1 = none) :
    openStream self u f = .undefined := by
  unfold openStream
  simp only [h1, h2]

/-- Claim C11, as stated, fails: on a file whose first token is `P9`, and on a P5
header with max-value 300, `open` throws `IOErr`, whose kind is `IOError`
and not `FormatError`.  On a file made of 2048 letters `P`, a first token
that is none of P1..P6 either, `open` throws nothing: the token overruns
the array `c_line`. -/
theorem open_throws_IOErr_on_bad_header :
    open_ leftover (noFiles.store "a.pbm" (ascii "P9\n1 1\n100\n")) "a.pbm" leftoverLocals =
      .throws .IOErr { leftover with m_magic := ascii "P9" } ∧
    open_ leftover (noFiles.store "a.pbm" (ascii "P5\n1 1\n300\n")) "a.pbm" leftoverLocals =
      .throws .IOErr { leftover with
        m_magic := ascii "P5", m_max_value := 300, m_image_data_position := 10 } ∧
    Exn.IOErr.kind = .IOError ∧ Exn.IOErr.kind ≠ .FormatError ∧
    open_ leftover (noFiles.store "a.pbm" (List.replicate 2048 80)) "a.pbm" leftoverLocals =
      .undefined := by
  refine ⟨rfl, rfl, rfl, by decide, ?_⟩
  have hs : skip_any_comments ⟨List.replicate 2048 80, 0⟩ = some ⟨List.replicate 2048 80, 0⟩ :=
    skip_any_comments_of_ne _ 80 (List.replicate 2047 80) rfl (by decide)
  have hf : (noFiles.store "a.pbm" (List.replicate 2048 80)) "a.pbm" =
      some (List.replicate 2048 80) := FileSystem.store_same _ _ _
  simp only [open_, hf]
  exact openStream_overrun _ _ _ _ hs (fscanf_s_overrun 2048 80 (by decide) (by decide))

/-- Claim C11, amended: the error `open` raises for a malformed header is `IOErr`.
For every file whose first token fits the array `c_line` (fewer than 2048
bytes) and, as the C string kept in `m_magic`, is not one of P1..P6, and for
every P5 header whose max-value token scans as a value of 255 or more,
`open` throws `IOErr`. -/
theorem open_malformed_header_throws_IOErr :
    (∀ (self : DiskImageResourcePBM) (fs : FileSystem) (filename : String) (u : OpenLocals)
      (bytes : List Nat) (s1 : FILE) (tok : List Nat) (s2 : FILE),
      fs filename = some bytes →
      skip_any_comments ⟨bytes, 0⟩ = some s1 → fscanf_s 2048 s1 = some (some tok, s2) →
      ¬ (cstring tok = ascii "P6" ∨ cstring tok = ascii "P5" ∨ cstring tok = ascii "P4" ∨
        cstring tok = ascii "P3" ∨ cstring tok = ascii "P2" ∨ cstring tok = ascii "P1") →
      ∃ st, open_ self fs filename u = .throws .IOErr st) ∧
    (∀ (self : DiskImageResourcePBM) (fs : FileSystem) (filename : String) (u : OpenLocals)
      (bytes : List Nat) (s1 : FILE) (tok : List Nat) (s2 s3 : FILE) (w : Option Int)
      (s4 s5 : FILE) (h : Option Int) (s6 s7 : FILE) (v : Int) (s8 : FILE),
      fs filename = some bytes →
      skip_any_comments ⟨bytes, 0⟩ = some s1 → fscanf_s 2048 s1 = some (some tok, s2) →
      cstring tok = ascii "P5" →
      skip_any_comments s2 = some s3 → fscanf_d s3 = (w, s4) →
      skip_any_comments s4 = some s5 → fscanf_d s5 = (h, s6) →
      skip_any_comments s6 = some s7 → fscanf_d s7 = (some v, s8) →
      v ≥ 255 →
      ∃ st, open_ self fs filename u = .throws .IOErr st) := by
  constructor
  · intro self fs filename u bytes s1 tok s2 hf h1 h2 hmag
    refine ⟨{ self with m_magic := cstring tok }, ?_⟩
    simp only [open_, hf]
    exact openStream_bad_magic self u _ s1 tok s2 h1 h2 hmag
  · intro self fs filename u bytes s1 tok s2 s3 w s4 s5 h s6 s7 v s8 hf h1 h2 hmag h3 h4 h5 h6
      h7 h8 hv
    refine ⟨{ self with
      m_magic := cstring tok, m_max_value := v, m_image_data_position := s8.pos }, ?_⟩
    simp only [open_, hf]
    exact openStream_bad_max self u _ s1 tok s2 s3 w s4 s5 h s6 s7 v s8 h1 h2
      (Or.inr (Or.inr (Or.inl hmag))) h3 h4 h5 h6 h7 h8 (Or.inr hv)

/-- Witness of `open_malformed_header_throws_IOErr`: the magic `P9`, and a P5
header with max-value 300. -/
theorem open_malformed_header_throws_IOErr_witness :
    (∃ st, open_ leftover (noFiles.store "a.pbm" (ascii "P9\n1 1\n100\n")) "a.pbm"
      leftoverLocals = .throws .IOErr st) ∧
    (∃ st, open_ leftover (noFiles.store "a.pbm" (ascii "P5\n1 1\n300\n")) "a.pbm"
      leftoverLocals = .throws .IOErr st) :=
  ⟨open_malformed_header_throws_IOErr.1 leftover (noFiles.store "a.pbm" (ascii "P9\n1 1\n100\n"))
      "a.pbm" leftoverLocals (ascii "P9\n1 1\n100\n") ⟨ascii "P9\n1 1\n100\n", 0⟩ (ascii "P9")
      ⟨ascii "P9\n1 1\n100\n", 2⟩ rfl rfl rfl (by decide),
   open_malformed_header_throws_IOErr.2 leftover (noFiles.store "a.pbm" (ascii "P5\n1 1\n300\n"))
      "a.pbm" leftoverLocals (ascii "P5\n1 1\n300\n") ⟨ascii "P5\n1 1\n300\n", 0⟩ (ascii "P5")
      ⟨ascii "P5\n1 1\n300\n", 2⟩ ⟨ascii "P5\n1 1\n300\n", 2⟩ (some 1)
      ⟨ascii "P5\n1 1\n300\n", 4⟩ ⟨ascii "P5\n1 1\n300\n", 4⟩ (some 1)
      ⟨ascii "P5\n1 1\n300\n", 6⟩ ⟨ascii "P5\n1 1\n300\n", 6⟩ 300
      ⟨ascii "P5\n1 1\n300\n", 10⟩ rfl rfl rfl rfl rfl rfl rfl rfl rfl rfl (by decide)⟩

/-- Claim C12, as stated, fails: with a bounding box of the image's extent and a
destination buffer of 3 columns for an image of 2, `read` throws `IOErr`,
whose kind is `IOError` and not `UnsupportedOperation`. -/
theorem read_throws_IOErr_on_buffer_mismatch :
    read convert_same
      { leftover with
        m_filename := "a.pgm", m_format := grayFormat 2 1 .VW_CHANNEL_UINT8,
        m_magic := ascii "P5", m_max_value := 100, m_image_data_position := 11 }
      (noFiles.store "a.pgm" (ascii "P5\n2 1\n100\n" ++ [50, 100]))
      (bufferOf (grayFormat 3 1 .VW_CHANNEL_UINT8) []) ⟨2, 1⟩ leftoverRead = .error .IOErr ∧
    Exn.IOErr.kind = .IOError ∧ Exn.IOErr.kind ≠ .UnsupportedOperation :=
  ⟨rfl, rfl, by decide⟩

/-- Claim C12, amended: a bounding box whose extent differs from (columns, rows)
makes `read` throw `NoImplErr`; a bounding box of the right extent with a
destination buffer whose own columns or rows differ makes it throw `IOErr`.
Either way the result is the same for every state of the disk and of the
staging memory: no pixel data is read. -/
theorem read_rejects_other_extents
    (convert : ImageBuffer → ImageBuffer → Bool → List Nat) (self : DiskImageResourcePBM)
    (dest : ImageBuffer) (bbox : BBox2i) :
    (¬ (bbox.width = self.m_format.cols ∧ bbox.height = self.m_format.rows) →
      ∀ (fs : FileSystem) (u : ReadLocals),
        read convert self fs dest bbox u = .error .NoImplErr) ∧
    ((bbox.width = self.m_format.cols ∧ bbox.height = self.m_format.rows) →
      ¬ (dest.format.cols = self.m_format.cols ∧ dest.format.rows = self.m_format.rows) →
      ∀ (fs : FileSystem) (u : ReadLocals),
        read convert self fs dest bbox u = .error .IOErr) := by
  constructor
  · intro hb fs u
    simp only [read, read_staged, read_run, hb, not_false_eq_true, if_true]
  · intro hb hd fs u
    simp only [read, read_staged, read_run, hb, hd, and_self, not_true_eq_false,
      not_false_eq_true, if_true, if_false]

/-- Witness of `read_rejects_other_extents`: an image of 2 by 1, a box of 1 by 1,
and a box of 2 by 1 with a buffer of 3 by 1. -/
theorem read_rejects_other_extents_witness :
    (∀ (fs : FileSystem) (u : ReadLocals),
      read convert_same { leftover with m_format := grayFormat 2 1 .VW_CHANNEL_UINT8 } fs
        (bufferOf (grayFormat 3 1 .VW_CHANNEL_UINT8) []) ⟨1, 1⟩ u = .error .NoImplErr) ∧
    (∀ (fs : FileSystem) (u : ReadLocals),
      read convert_same { leftover with m_format := grayFormat 2 1 .VW_CHANNEL_UINT8 } fs
        (bufferOf (grayFormat 3 1 .VW_CHANNEL_UINT8) []) ⟨2, 1⟩ u = .error .IOErr) :=
  ⟨(read_rejects_other_extents convert_same
      { leftover with m_format := grayFormat 2 1 .VW_CHANNEL_UINT8 }
      (bufferOf (grayFormat 3 1 .VW_CHANNEL_UINT8) []) ⟨1, 1⟩).1 (by decide),
   (read_rejects_other_extents convert_same
      { leftover with m_format := grayFormat 2 1 .VW_CHANNEL_UINT8 }
      (bufferOf (grayFormat 3 1 .VW_CHANNEL_UINT8) []) ⟨2, 1⟩).2 (by decide) (by decide)⟩

/-! ## Claims on the binary and boolean paths of read -/

theorem normalize_length (data : List Nat) : ∀ (count m : Nat),
    (normalize data count m).length = data.length := by
  induction data with
  | nil => intro count m; simp [normalize]
  | cons s rest ih =>
    intro count m
    cases count with
    | zero => simp [normalize]
    | succ c => simp [normalize, ih c m]

theorem afterFread_length (u : ReadLocals) (n : Nat) (stream : FILE) :
    (afterFread u n (fread n stream).1).length = n := by
  simp only [afterFread, fread, newArray, List.length_append, List.length_drop, List.length_map,
    List.length_range, List.length_take]
  omega

theorem fread_pos (n : Nat) (stream : FILE) (h : stream.pos + n ≤ stream.content.length) :
    (fread n stream).2.pos = stream.pos + n := by
  simp only [fread, List.length_take, List.length_drop]
  omega

theorem afterFread_full (u : ReadLocals) (n : Nat) (stream : FILE)
    (h : stream.pos + n ≤ stream.content.length) :
    afterFread u n (fread n stream).1 = (stream.content.drop stream.pos).take n := by
  have hl : ((stream.content.drop stream.pos).take n).length = n := by
    simp only [List.length_take, List.length_drop]; omega
  have hd : ((List.range n).map u.image_data).drop
      ((stream.content.drop stream.pos).take n).length = [] :=
    List.drop_eq_nil_of_le (by rw [hl]; simp)
  simp only [afterFread, fread, newArray]
  rw [hd, List.append_nil]

/-- Claim C13, as stated, fails: an image of 2 by 1 under P5 whose file holds one
byte from the data offset on; `read` returns a buffer, its second sample
made from what the fresh array held, and throws nothing. -/
theorem read_returns_on_short_file :
    (ascii "P5\n2 1\n100\n" ++ [50]).length - 11 = 1 ∧
    ∀ u : ReadLocals,
      read_staged
        { leftover with
          m_filename := "a.pgm", m_format := grayFormat 2 1 .VW_CHANNEL_UINT8,
          m_magic := ascii "P5", m_max_value := 100, m_image_data_position := 11 }
        (noFiles.store "a.pgm" (ascii "P5\n2 1\n100\n" ++ [50]))
        (bufferOf (grayFormat 2 1 .VW_CHANNEL_UINT8) []) ⟨2, 1⟩ u =
      .ok (bufferOf (grayFormat 2 1 .VW_CHANNEL_UINT8)
        [127, normalizeSample (u.image_data 1) 100]) :=
  ⟨rfl, fun _ => rfl⟩

theorem read_run_binary (self : DiskImageResourcePBM) (fs : FileSystem)
    (dest : ImageBuffer) (bbox : BBox2i) (bytes : List Nat) (u : ReadLocals) (k : Nat)
    (hfile : fs self.m_filename = some bytes)
    (hbbox : bbox.width = self.m_format.cols ∧ bbox.height = self.m_format.rows)
    (hdest : dest.format.cols = self.m_format.cols ∧ dest.format.rows = self.m_format.rows)
    (hk : toInt32 (self.m_format.cols * self.m_format.rows) = (k : Int)) :
    (self.m_magic = ascii "P4" →
      read_run self fs dest bbox u = .ok
        ({ data := afterFread u k (fread k ⟨bytes, self.m_image_data_position⟩).1,
           format := self.m_format, cstride := 1, rstride := self.m_format.cols,
           pstride := (k : Int) },
         (fread k ⟨bytes, self.m_image_data_position⟩).2)) ∧
    (self.m_magic = ascii "P5" →
      read_run self fs dest bbox u = .ok
        ({ data := normalize (afterFread u k (fread k ⟨bytes, self.m_image_data_position⟩).1) k
             (toUInt8 self.m_max_value),
           format := self.m_format, cstride := 1, rstride := self.m_format.cols,
           pstride := (k : Int) },
         (fread k ⟨bytes, self.m_image_data_position⟩).2)) ∧
    (∀ k3 : Nat, toInt32 ((k : Int) * 3) = (k3 : Int) → self.m_magic = ascii "P6" →
      read_run self fs dest bbox u = .ok
        ({ data := normalize (afterFread u k3 (fread k3 ⟨bytes, self.m_image_data_position⟩).1)
             k3 (toUInt8 self.m_max_value),
           format := self.m_format, cstride := 1, rstride := self.m_format.cols,
           pstride := (k : Int) },
         (fread k3 ⟨bytes, self.m_image_data_position⟩).2)) := by
  have hnn : ¬ ((k : Int) < 0) := by omega
  refine ⟨fun hm => ?_, fun hm => ?_, fun k3 hk3 hm => ?_⟩
  · simp [read_run, hbbox, hdest, hfile, hm, hk, hnn, ascii_P1, ascii_P2, ascii_P3,
      ascii_P4, ascii_P5, ascii_P6]
  · simp [read_run, hbbox, hdest, hfile, hm, hk, hnn, ascii_P1, ascii_P2, ascii_P3,
      ascii_P4, ascii_P5, ascii_P6]
  · have hnn3 : ¬ ((k3 : Int) < 0) := by omega
    simp [read_run, hbbox, hdest, hfile, hm, hk, hk3, hnn3, ascii_P1, ascii_P2, ascii_P3,
      ascii_P4, ascii_P5, ascii_P6]

theorem read_staged_of_run (self : DiskImageResourcePBM) (fs : FileSystem)
    (dest : ImageBuffer) (bbox : BBox2i) (u : ReadLocals) (buf : ImageBuffer) (stream : FILE)
    (h : read_run self fs dest bbox u = .ok (buf, stream)) :
    read_staged self fs dest bbox u = .ok buf := by
  simp only [read_staged, h]

theorem fread_eq (n : Nat) (bytes : List Nat) (pos : Nat) :
    fread n ⟨bytes, pos⟩ =
      ((bytes.drop pos).take n, ⟨bytes, pos + ((bytes.drop pos).take n).length⟩) := rfl

theorem afterFread_eq (u : ReadLocals) (n : Nat) (avail : List Nat) :
    afterFread u n avail = avail ++ ((List.range n).map u.image_data).drop avail.length := rfl

/-- Claim C13, amended: `read` does not test how many bytes `fread` delivered.  For
P4, P5 and P6, with columns x rows x channels within 32 bits, `read` throws
nothing: it stages the bytes present from the data offset on, at most
columns x rows x channels of them, followed by what the fresh array held
beyond them (all of it normalized for P5 and P6), and leaves the stream
after the bytes read.  When enough bytes are present, exactly columns x rows
x channels bytes are consumed and the staged samples are those bytes. -/
theorem read_binary_ignores_short_read (self : DiskImageResourcePBM) (fs : FileSystem)
    (dest : ImageBuffer) (bbox : BBox2i) (bytes : List Nat) (c r count : Nat)
    (u : ReadLocals)
    (hmagic : (self.m_magic = ascii "P4" ∧ count = c * r) ∨
      (self.m_magic = ascii "P5" ∧ count = c * r) ∨
      (self.m_magic = ascii "P6" ∧ count = c * r * 3))
    (hfile : fs self.m_filename = some bytes)
    (hbbox : bbox.width = self.m_format.cols ∧ bbox.height = self.m_format.rows)
    (hdest : dest.format.cols = self.m_format.cols ∧ dest.format.rows = self.m_format.rows)
    (hc : self.m_format.cols = c) (hr : self.m_format.rows = r) (hn : count < 2 ^ 31) :
    ∃ buf stream,
      read_run self fs dest bbox u = .ok (buf, stream) ∧
      read_staged self fs dest bbox u = .ok buf ∧
      buf.data =
        (if self.m_magic = ascii "P4" then id
          else fun d => normalize d count (toUInt8 self.m_max_value))
          ((bytes.drop self.m_image_data_position).take count ++
            ((List.range count).map u.image_data).drop
              ((bytes.drop self.m_image_data_position).take count).length) ∧
      stream = ⟨bytes, self.m_image_data_position +
        ((bytes.drop self.m_image_data_position).take count).length⟩ ∧
      (self.m_image_data_position + count ≤ bytes.length →
        buf.data =
          (if self.m_magic = ascii "P4" then id
            else fun d => normalize d count (toUInt8 self.m_max_value))
            ((bytes.drop self.m_image_data_position).take count) ∧
        stream.pos = self.m_image_data_position + count) := by
  have hcr : c * r < 2 ^ 31 := by
    rcases hmagic with ⟨_, rfl⟩ | ⟨_, rfl⟩ | ⟨_, rfl⟩ <;> omega
  have hk : toInt32 (self.m_format.cols * self.m_format.rows) = ((c * r : Nat) : Int) := by
    rw [hc, hr, ← Int.natCast_mul, toInt32_natCast _ hcr]
  have h46 : ascii "P4" ≠ ascii "P6" := by decide
  have h54 : ascii "P5" ≠ ascii "P4" := by decide
  have h64 : ascii "P6" ≠ ascii "P4" := by decide
  have hfull : ∀ n : Nat, self.m_image_data_position + n ≤ bytes.length →
      ((bytes.drop self.m_image_data_position).take n).length = n := by
    intro n hle
    simp only [List.length_take, List.length_drop]
    omega
  have hrun := read_run_binary self fs dest bbox bytes u (c * r) hfile hbbox hdest hk
  have hdz : ∀ n : Nat, ((List.range n).map u.image_data).drop n = [] :=
    fun n => List.drop_eq_nil_of_le (by simp)
  rcases hmagic with ⟨hm, rfl⟩ | ⟨hm, rfl⟩ | ⟨hm, rfl⟩
  · have h := hrun.1 hm
    refine ⟨_, _, h, read_staged_of_run _ _ _ _ _ _ _ h, ?_, ?_, ?_⟩
    · simp only [hm, if_true, id, fread_eq, afterFread_eq]
    · simp only [fread_eq]
    · intro hle
      simp only [hm, if_true, id, fread_eq, afterFread_eq,
        hfull _ hle, hdz, List.append_nil, and_self]
  · have h := hrun.2.1 hm
    refine ⟨_, _, h, read_staged_of_run _ _ _ _ _ _ _ h, ?_, ?_, ?_⟩
    · simp only [hm, h54, if_false, fread_eq, afterFread_eq]
    · simp only [fread_eq]
    · intro hle
      simp only [hm, h54, if_false, fread_eq, afterFread_eq,
        hfull _ hle, hdz, List.append_nil, and_self]
  · have hk3 : toInt32 (((c * r : Nat) : Int) * 3) = ((c * r * 3 : Nat) : Int) := by
      have := toInt32_natCast (c * r * 3) hn
      rw [← this]
      push_cast
      rfl
    have h := hrun.2.2 (c * r * 3) hk3 hm
    refine ⟨_, _, h, read_staged_of_run _ _ _ _ _ _ _ h, ?_, ?_, ?_⟩
    · simp only [hm, h64, if_false, fread_eq, afterFread_eq]
    · simp only [fread_eq]
    · intro hle
      simp only [hm, h64, if_false, fread_eq, afterFread_eq,
        hfull _ hle, hdz, List.append_nil, and_self]

/-- Witness of `read_binary_ignores_short_read`: an image of 2 by 1 under P5 with
both bytes present. -/
theorem read_binary_ignores_short_read_witness :
    ∃ buf stream,
      read_run
        { leftover with
          m_filename := "a.pgm", m_format := grayFormat 2 1 .VW_CHANNEL_UINT8,
          m_magic := ascii "P5", m_max_value := 100, m_image_data_position := 11 }
        (noFiles.store "a.pgm" (ascii "P5\n2 1\n100\n" ++ [50, 100]))
        (bufferOf (grayFormat 2 1 .VW_CHANNEL_UINT8) []) ⟨2, 1⟩ leftoverRead =
        .ok (buf, stream) ∧
      read_staged
        { leftover with
          m_filename := "a.pgm", m_format := grayFormat 2 1 .VW_CHANNEL_UINT8,
          m_magic := ascii "P5", m_max_value := 100, m_image_data_position := 11 }
        (noFiles.store "a.pgm" (ascii "P5\n2 1\n100\n" ++ [50, 100]))
        (bufferOf (grayFormat 2 1 .VW_CHANNEL_UINT8) []) ⟨2, 1⟩ leftoverRead = .ok buf ∧
      buf.data =
        (if ascii "P5" = ascii "P4" then id
          else fun d => normalize d (2 * 1) (toUInt8 100))
          (((ascii "P5\n2 1\n100\n" ++ [50, 100]).drop 11).take (2 * 1) ++
            ((List.range (2 * 1)).map leftoverRead.image_data).drop
              (((ascii "P5\n2 1\n100\n" ++ [50, 100]).drop 11).take (2 * 1)).length) ∧
      stream = ⟨ascii "P5\n2 1\n100\n" ++ [50, 100], 11 +
        (((ascii "P5\n2 1\n100\n" ++ [50, 100]).drop 11).take (2 * 1)).length⟩ ∧
      (11 + 2 * 1 ≤ (ascii "P5\n2 1\n100\n" ++ [50, 100]).length →
        buf.data =
          (if ascii "P5" = ascii "P4" then id
            else fun d => normalize d (2 * 1) (toUInt8 100))
            (((ascii "P5\n2 1\n100\n" ++ [50, 100]).drop 11).take (2 * 1)) ∧
        stream.pos = 11 + 2 * 1) :=
  read_binary_ignores_short_read
    { leftover with
      m_filename := "a.pgm", m_format := grayFormat 2 1 .VW_CHANNEL_UINT8,
      m_magic := ascii "P5", m_max_value := 100, m_image_data_position := 11 }
    (noFiles.store "a.pgm" (ascii "P5\n2 1\n100\n" ++ [50, 100]))
    (bufferOf (grayFormat 2 1 .VW_CHANNEL_UINT8) []) ⟨2, 1⟩
    (ascii "P5\n2 1\n100\n" ++ [50, 100]) 2 1 (2 * 1) leftoverRead
    (Or.inr (Or.inl ⟨rfl, rfl⟩)) rfl ⟨rfl, rfl⟩ ⟨rfl, rfl⟩ rfl rfl (by decide)

theorem digitChar_toNat (k : Nat) (h : k < 10) : (Nat.digitChar k).toNat = 48 + k := by
  interval_cases k <;> rfl

theorem toDigitsCore_eq (fuel : Nat) : ∀ (n : Nat) (ds : List Char),
    (Nat.toDigitsCore 10 fuel n ds).map Char.toNat = decimalDigits fuel n (ds.map Char.toNat) := by
  induction fuel with
  | zero => intro n ds; simp [Nat.toDigitsCore, decimalDigits]
  | succ f ih =>
    intro n ds
    unfold Nat.toDigitsCore decimalDigits
    have hd : (Nat.digitChar (n % 10)).toNat = 48 + n % 10 :=
      digitChar_toNat _ (Nat.mod_lt _ (by decide))
    by_cases h : n < 10
    · have h0 : n / 10 = 0 := Nat.div_eq_of_lt h
      have hm : n % 10 = n := Nat.mod_eq_of_lt h
      simp [h, h0, hd, hm]
      rw [hm] at hd
      exact hd
    · have h0 : n / 10 ≠ 0 := by omega
      simp only [h0, h, if_false]
      rw [ih]
      simp [hd]

theorem decimal_ofNat (n : Nat) : decimal (n : Int) = decimalDigits (n + 1) n [] := by
  unfold decimal ascii
  show (toString (Int.ofNat n)).toList.map Char.toNat = _
  simp only [toString, Int.repr, Nat.repr, Nat.toDigits]
  have := toDigitsCore_eq (n + 1) n []
  simpa using this

theorem decimal_negSucc (n : Nat) :
    decimal (Int.negSucc n) = 45 :: decimalDigits (n + 2) (n + 1) [] := by
  unfold decimal ascii
  simp only [toString, Int.repr, Nat.repr, Nat.toDigits]
  have := toDigitsCore_eq (n + 1 + 1) (n + 1) []
  simp only [List.map_nil] at this
  simp only [String.toList, String.data_append, List.asString, List.map_append]
  rw [this]
  rfl

theorem fprintf_d_eq_decimal (z : Int) : fprintf_d z = decimal z := by
  cases z with
  | ofNat n =>
    rw [show Int.ofNat n = (n : Int) from rfl, decimal_ofNat]
    simp [fprintf_d]
  | negSucc n =>
    rw [decimal_negSucc]
    have h : Int.negSucc n < 0 := Int.negSucc_lt_zero n
    simp [fprintf_d, h, Int.natAbs]

/-! ## Claims on create -/

/-- Claim C14: for a descriptor of one plane, of any columns, rows and pixel format,
whose channel type is boolean, 8-bit or 16-bit, `create` returns, the file
holds exactly `P5\n`, the decimal columns, `\n`, the decimal rows, `\n`, the
max-value token of the channel type and `\n`, and the recorded data offset is
the length of that header. -/
theorem create_emits_header (self : DiskImageResourcePBM) (fs : FileSystem)
    (filename : String) (format : ImageFormat) (M : String)
    (hplanes : format.planes = 1) (hM : spec_max_value_token format.channel_type = some M) :
    ∃ st, create self fs filename format = .returns st ∧
      st.fs = fs.store filename
        (ascii "P5\n" ++ decimal format.cols ++ ascii "\n" ++ decimal format.rows ++ ascii "\n"
          ++ ascii M ++ ascii "\n") ∧
      st.self.m_image_data_position =
        (ascii "P5\n" ++ decimal format.cols ++ ascii "\n" ++ decimal format.rows ++ ascii "\n"
          ++ ascii M ++ ascii "\n").length ∧
      st.self.m_filename = filename ∧ st.self.m_format = format ∧ st.pending = [] := by
  have e1 : ascii "1\n" = ascii "1" ++ ascii "\n" := rfl
  have e2 : ascii "255\n" = ascii "255" ++ ascii "\n" := rfl
  have e3 : ascii "65535\n" = ascii "65535" ++ ascii "\n" := rfl
  have hcase : (format.channel_type = .VW_CHANNEL_BOOL ∧ M = "1") ∨
      (format.channel_type = .VW_CHANNEL_UINT8 ∧ M = "255") ∨
      (format.channel_type = .VW_CHANNEL_UINT16 ∧ M = "65535") := by
    cases hct : format.channel_type <;> rw [hct] at hM <;>
      simp [spec_max_value_token] at hM <;> simp [hM]
  rcases hcase with ⟨h, rfl⟩ | ⟨h, rfl⟩ | ⟨h, rfl⟩
  · rw [create_returns self fs filename format (ascii "1\n") hplanes (Or.inl ⟨h, rfl⟩)]
    refine ⟨_, rfl, ?_, ?_, rfl, rfl, rfl⟩ <;>
      simp only [fprintf_d_eq_decimal, e1, List.append_assoc]
  · rw [create_returns self fs filename format (ascii "255\n") hplanes
      (Or.inr (Or.inl ⟨h, rfl⟩))]
    refine ⟨_, rfl, ?_, ?_, rfl, rfl, rfl⟩ <;>
      simp only [fprintf_d_eq_decimal, e2, List.append_assoc]
  · rw [create_returns self fs filename format (ascii "65535\n") hplanes
      (Or.inr (Or.inr ⟨h, rfl⟩))]
    refine ⟨_, rfl, ?_, ?_, rfl, rfl, rfl⟩ <;>
      simp only [fprintf_d_eq_decimal, e3, List.append_assoc]

/-- Witness of `create_emits_header`: 640 by 480 in 8 bits gives `P5\n640\n480\n255\n`
and the offset 15. -/
theorem create_emits_header_witness :
    ∃ st, create leftover noFiles "a.pgm" (grayFormat 640 480 .VW_CHANNEL_UINT8) = .returns st ∧
      st.fs = noFiles.store "a.pgm"
        (ascii "P5\n" ++ decimal 640 ++ ascii "\n" ++ decimal 480 ++ ascii "\n"
          ++ ascii "255" ++ ascii "\n") ∧
      st.self.m_image_data_position =
        (ascii "P5\n" ++ decimal 640 ++ ascii "\n" ++ decimal 480 ++ ascii "\n"
          ++ ascii "255" ++ ascii "\n").length ∧
      st.self.m_filename = "a.pgm" ∧
      st.self.m_format = grayFormat 640 480 .VW_CHANNEL_UINT8 ∧ st.pending = [] :=
  create_emits_header leftover noFiles "a.pgm" (grayFormat 640 480 .VW_CHANNEL_UINT8) "255"
    rfl rfl

/-- Claim C15: for a descriptor whose plane count is not 1, `create` throws
`NoImplErr` with the object and the disk as they were and nothing handed to
any stream. -/
theorem create_rejects_planes (self : DiskImageResourcePBM) (fs : FileSystem)
    (filename : String) (format : ImageFormat) (hplanes : format.planes ≠ 1) :
    create self fs filename format = .throws .NoImplErr ⟨self, fs, []⟩ ∧
      Exn.NoImplErr.kind = .UnsupportedOperation := by
  refine ⟨?_, rfl⟩
  unfold create
  rw [if_pos hplanes]

/-- Witness of `create_rejects_planes`: a descriptor of 2 planes. -/
theorem create_rejects_planes_witness :
    create leftover noFiles "a.pgm"
        { grayFormat 4 4 .VW_CHANNEL_UINT8 with planes := 2 } =
      .throws .NoImplErr ⟨leftover, noFiles, []⟩ ∧
      Exn.NoImplErr.kind = .UnsupportedOperation :=
  create_rejects_planes leftover noFiles "a.pgm"
    { grayFormat 4 4 .VW_CHANNEL_UINT8 with planes := 2 } (by decide)

/-- Claim C16, run on every single-plane descriptor of another channel type:
`create` throws `NoImplErr`, but by then the object holds the new file name
and descriptor, the file has been created or emptied, and the first three
header lines have been handed to a stream that is never closed. -/
theorem create_fails_late_on_channel_type (self : DiskImageResourcePBM) (fs : FileSystem)
    (filename : String) (cols rows : Int) (pixel_format : PixelFormatEnum) (code : Nat) :
    create self fs filename
        { cols := cols, rows := rows, planes := 1, pixel_format := pixel_format,
          channel_type := .other code } =
      .throws .NoImplErr
        ⟨{ self with
            m_filename := filename,
            m_format :=
              { cols := cols, rows := rows, planes := 1, pixel_format := pixel_format,
                channel_type := .other code } },
          fs.store filename [],
          ascii "P5\n" ++ (fprintf_d cols ++ ascii "\n") ++ (fprintf_d rows ++ ascii "\n")⟩ := by
  simp [create]

/-! ## Claims on the ASCII samples and on skip_any_comments -/

/-- Claim C18, run on P2 files with max-value 100.  The token `256` is staged as 0
and the token `300` as 112 (its low byte 44 rescaled): the `%hu` store
through a `uint8` pointer keeps the value modulo 256 before `normalize`
sees it.  The token `101` is staged as 255. -/
theorem read_P2_wraps_large_tokens :
    (∃ o, construct_open leftover (noFiles.store "a.pgm" (ascii "P2\n1 1\n100\n256\n")) "a.pgm"
        leftoverLocals = .returns o ∧ o.m_max_value = 100 ∧
      ∀ u : ReadLocals,
        read_staged o (noFiles.store "a.pgm" (ascii "P2\n1 1\n100\n256\n"))
          (bufferOf (grayFormat 1 1 .VW_CHANNEL_UINT8) []) ⟨1, 1⟩ u =
        .ok (bufferOf (grayFormat 1 1 .VW_CHANNEL_UINT8) [0])) ∧
    (∃ o, construct_open leftover (noFiles.store "a.pgm" (ascii "P2\n1 1\n100\n300\n")) "a.pgm"
        leftoverLocals = .returns o ∧ o.m_max_value = 100 ∧
      ∀ u : ReadLocals,
        read_staged o (noFiles.store "a.pgm" (ascii "P2\n1 1\n100\n300\n"))
          (bufferOf (grayFormat 1 1 .VW_CHANNEL_UINT8) []) ⟨1, 1⟩ u =
        .ok (bufferOf (grayFormat 1 1 .VW_CHANNEL_UINT8) [112])) ∧
    (∃ o, construct_open leftover (noFiles.store "a.pgm" (ascii "P2\n1 1\n100\n101\n")) "a.pgm"
        leftoverLocals = .returns o ∧ o.m_max_value = 100 ∧
      ∀ u : ReadLocals,
        read_staged o (noFiles.store "a.pgm" (ascii "P2\n1 1\n100\n101\n"))
          (bufferOf (grayFormat 1 1 .VW_CHANNEL_UINT8) []) ⟨1, 1⟩ u =
        .ok (bufferOf (grayFormat 1 1 .VW_CHANNEL_UINT8) [255])) :=
  ⟨⟨_, rfl, rfl, fun _ => rfl⟩, ⟨_, rfl, rfl, fun _ => rfl⟩, ⟨_, rfl, rfl, fun _ => rfl⟩⟩

theorem doWhileNotNewline_none (content : List Nat) (fuel : Nat) : ∀ pos : Nat,
    10 ∉ content.drop pos → doWhileNotNewline fuel ⟨content, pos⟩ = none := by
  induction fuel with
  | zero => intro pos _; rfl
  | succ f ih =>
    intro pos h
    unfold doWhileNotNewline fgetc
    simp only
    cases hd : content.drop pos with
    | nil =>
      simp only [ne_eq, reduceCtorEq, not_false_eq_true, if_true]
      exact ih pos h
    | cons c t =>
      have hc : c ≠ 10 := by
        intro e
        apply h
        rw [hd, e]
        exact List.mem_cons_self _ _
      have ht : 10 ∉ content.drop (pos + 1) := by
        intro hm
        apply h
        have : content.drop (pos + 1) = t := by
          rw [← List.drop_drop, hd]
          rfl
        rw [hd]
        rw [this] at hm
        exact List.mem_cons_of_mem _ hm
      simp only [ne_eq, Option.some.injEq, hc, not_false_eq_true, if_true]
      exact ih (pos + 1) ht

/-- Claim C19, run on the stream `# c`, which ends inside a comment: whatever the
number of iterations allowed, the inner loop entered after the `#` has not
exited, and `skip_any_comments` does not return; `open` on such a file does
not return either. -/
theorem skip_any_comments_loops_at_eof :
    (∀ fuel : Nat, doWhileNotNewline fuel (fgetc ⟨ascii "# c", 0⟩).2 = none) ∧
    skip_any_comments ⟨ascii "# c", 0⟩ = none ∧
    open_ leftover (noFiles.store "a.pbm" (ascii "# c")) "a.pbm" leftoverLocals = .diverges :=
  ⟨fun fuel => doWhileNotNewline_none (ascii "# c") fuel 1 (by decide), rfl, rfl⟩

/-- Claim C20, run at end of file.  On the stream `P5` at position 2 the next
character is not `#`, yet the position after the call is 1: the final
`fseek` goes one byte back although `fgetc` consumed nothing.  After the
comment `#a\n` that ends the stream the position is 2, on the newline of
the comment.  In `open`, the file `P5 3 7` gets max-value 7: the height is
scanned a second time. -/
theorem skip_any_comments_steps_back_at_eof :
    fgetc ⟨ascii "P5", 2⟩ = (none, ⟨ascii "P5", 2⟩) ∧
    skip_any_comments ⟨ascii "P5", 2⟩ = some ⟨ascii "P5", 1⟩ ∧
    skip_any_comments ⟨ascii "#a\n", 0⟩ = some ⟨ascii "#a\n", 2⟩ ∧
    open_ leftover (noFiles.store "a.pgm" (ascii "P5 3 7")) "a.pgm" leftoverLocals =
      .returns { leftover with
        m_magic := ascii "P5", m_max_value := 7, m_image_data_position := 6,
        m_format := grayFormat 3 7 .VW_CHANNEL_UINT8 } :=
  ⟨rfl, rfl, rfl, rfl⟩

end PBM
